import Mathlib

/-!
Verification development for the cortex-loop relevance engines.

This file gives a shallow embedding, in Lean 4, of the two algorithmic cores
of the repository — the repo-map engine (`src/cortex/repomap.py`) and the
failure-retrieval engine (`src/cortex/graveyard.py`, with its store window
interface from `src/cortex/store.py`) — and proves or refutes the frozen
specification claims about them.

Modelling conventions:
* Python `float` arithmetic is modelled over `ℚ` (the constants involved are
  decimal literals, and the claims under study are algebraic, not about IEEE
  rounding).  The one transcendental, `math.log`, is kept as an explicit
  function parameter `lg`; theorems that need a property of it (monotone
  nonnegativity above 1) take it as a hypothesis, which the real logarithm
  satisfies.
* Python strings are Lean `String`s; `len(text.encode("utf-8"))` is modelled
  by summing `Char.utf8Size` over the characters, which is exactly the UTF-8
  encoded length.
* Python `set`s become `Finset String`; SQLite rows become explicit
  structures; the store is a snapshot value (its recent window plus the
  optional FTS narrowing capability), matching the spec's synchronous,
  side-effect-free reading of the engines.
-/

/-! ## Failure tokenizer and normalizer (`graveyard.py`) -/

/-- Character class of the word-token regex `_WORD_RE` in `graveyard.py`:
ASCII letters, digits, underscore, dot, slash, dash. -/
def isWordChar (c : Char) : Bool :=
  (('a' ≤ c ∧ c ≤ 'z') ∨ ('A' ≤ c ∧ c ≤ 'Z') ∨ ('0' ≤ c ∧ c ≤ '9')
    ∨ c = '_' ∨ c = '.' ∨ c = '/' ∨ c = '-')

/-- Maximal runs of word characters: the effect of `_WORD_RE.findall`.
`cur` accumulates the current run in reverse. -/
def wordRunsAux : List Char → List Char → List (List Char)
  | [], cur => if cur.isEmpty then [] else [cur.reverse]
  | c :: rest, cur =>
    if isWordChar c then wordRunsAux rest (c :: cur)
    else if cur.isEmpty then wordRunsAux rest [] else cur.reverse :: wordRunsAux rest []

/-- All word-character runs of a string, in order (`_WORD_RE.findall(text)`). -/
def wordRuns (text : String) : List (List Char) :=
  wordRunsAux text.data []

/-- Characters stripped from both ends by the `strip` call in
`_normalize_token` (dot, underscore, slash, dash). -/
def isStripChar (c : Char) : Bool :=
  c = '.' ∨ c = '_' ∨ c = '/' ∨ c = '-'

/-- Python two-sided `strip` over the boundary-punctuation class. -/
def stripEdges (cs : List Char) : List Char :=
  ((cs.dropWhile isStripChar).reverse.dropWhile isStripChar).reverse

/-- The fixed synonym table `_SYNONYM_CANONICAL` of `graveyard.py`
(`dict.get(value, value)` semantics). -/
def synonymCanonical (s : String) : String :=
  if s = "redis" then "cache"
  else if s = "caching" then "cache"
  else if s = "latency" then "timeout"
  else if s = "slow" then "timeout"
  else if s = "slowness" then "timeout"
  else if s = "crash" then "fail"
  else if s = "crashed" then "fail"
  else if s = "failure" then "fail"
  else if s = "failed" then "fail"
  else if s = "error" then "fail"
  else if s = "errors" then "fail"
  else if s = "exception" then "fail"
  else if s = "exceptions" then "fail"
  else if s = "connection" then "connect"
  else if s = "connections" then "connect"
  else s

/-- Python `value.endswith(suf)` on character lists. -/
def endsWithL (cs suf : List Char) : Bool :=
  suf.isSuffixOf cs

/-- Python `value[:-n]` (drop the last `n` characters). -/
def dropLastL (cs : List Char) (n : Nat) : List Char :=
  cs.take (cs.length - n)

/-- `Graveyard._normalize_token`: lower-case, strip boundary punctuation,
drop short tokens, light stemming (ies→y, -ing, -ed, -s under length guards),
then the synonym table. -/
def normalize_token (token : String) : String :=
  let value : List Char := stripEdges (token.data.map Char.toLower)
  if value.length ≤ 2 then ""
  else
    let value :=
      if endsWithL value ['i', 'e', 's'] ∧ 4 < value.length then dropLastL value 3 ++ ['y']
      else if endsWithL value ['i', 'n', 'g'] ∧ 5 < value.length then dropLastL value 3
      else if endsWithL value ['e', 'd'] ∧ 4 < value.length then dropLastL value 2
      else if endsWithL value ['s'] ∧ 3 < value.length then dropLastL value 1
      else value
    synonymCanonical ⟨value⟩

/-- `Graveyard._tokenize`: normalized word tokens of a text, empty results
dropped, order and multiplicity kept. -/
def tokenize (text : String) : List String :=
  (wordRuns text).map (fun run => normalize_token ⟨run⟩) |>.filter (fun t => t ≠ "")

/-- `Graveyard._keywords`: the token set of a text. -/
def keywordsOf (text : String) : Finset String :=
  (tokenize text).toFinset

/-- `Graveyard._token_jaccard`. -/
def token_jaccard (left right : Finset String) : ℚ :=
  if left = ∅ ∨ right = ∅ then 0
  else
    let union := left ∪ right
    if union = ∅ then 0 else (left ∩ right).card / union.card

/-- Python `str.split` on a single separator character, keeping empty
segments (`cur` accumulates the current segment in reverse). -/
def splitSeg (sep : Char) : List Char → List Char → List (List Char)
  | [], cur => [cur.reverse]
  | c :: rest, cur =>
    if c = sep then cur.reverse :: splitSeg sep rest []
    else splitSeg sep rest (c :: cur)

/-- `Graveyard._norm_path`: split on slashes, drop empty and `.` segments,
rejoin (the `PurePosixPath` round trip collapses the same segments). -/
def norm_path (p : String) : String :=
  ⟨List.intercalate ['/']
    ((splitSeg '/' p.data []).filter (fun s => s ≠ [] ∧ s ≠ ['.']))⟩

/-! ## Graveyard data model -/

/-- `GraveyardConfig` from `genome.py` (defaults included). -/
structure GraveyardConfig where
  enabled : Bool := true
  max_matches : Nat := 5
  similarity_threshold : ℚ := 35 / 100
  min_keyword_overlap : Nat := 1
deriving DecidableEq

/-- One stored failure record, as surfaced by `SQLiteStore.list_graveyard`
(`id`, `summary`, `reason`, decoded `files` and `keywords` lists,
`created_at`; `session_id` is never read by the retrieval path). -/
structure GraveyardEntry where
  id : ℤ
  summary : String
  reason : String
  files : List String
  keywords : List String
  created_at : String
deriving DecidableEq

/-- `GraveyardMatch` from `graveyard.py`. -/
structure GraveyardMatch where
  entry_id : ℤ
  score : ℚ
  summary : String
  reason : String
  files : List String
  keyword_overlap : List String
  file_overlap : List String
  semantic_score : ℚ
  created_at : String
deriving DecidableEq

/-- Store snapshot seen by one retrieval: the recent window returned by
`list_graveyard(limit=200)` (id-descending) and the FTS narrowing capability
(`none` = unsupported, `some l` = candidate rows). -/
structure StoreModel where
  window : List GraveyardEntry
  fts : List String → Option (List GraveyardEntry)

/-- `Graveyard._load_candidate_entries`: full window when the query has no
tokens, when narrowing is unsupported (`None`), or when it returns nothing;
otherwise the narrowed candidates. -/
def load_candidate_entries (st : StoreModel) (query_tokens : List String) :
    List GraveyardEntry :=
  if query_tokens.isEmpty then st.window
  else
    match st.fts query_tokens with
    | none => st.window
    | some cs => if cs.isEmpty then st.window else cs

/-- Sorted list of a finite set of strings (Python `sorted` over a set). -/
def sortedList (s : Finset String) : List String :=
  s.sort (· ≤ ·)

/-- Keyword set of a stored entry (`{str(k) for k in entry.get("keywords")}`). -/
def entryKeywordSet (e : GraveyardEntry) : Finset String :=
  e.keywords.toFinset

/-- Document frequency of a token over the IDF corpus: number of window
entries whose keyword set contains the token (the `Counter` over per-entry
keyword sets). -/
def docFreq (idf_source : List GraveyardEntry) (t : String) : Nat :=
  (idf_source.filter (fun e => t ∈ entryKeywordSet e)).length

/-- Per-token IDF weight `lg((corpusSize+1)/(docFreq+1)) + 1`, with the
logarithm abstracted as `lg` (the source uses floating `math.log`). -/
def queryIdf (lg : ℚ → ℚ) (idf_source : List GraveyardEntry) (t : String) : ℚ :=
  lg ((idf_source.length + 1) / (docFreq idf_source t + 1)) + 1

/-- Scoring context shared by all candidates of one query. -/
structure QueryCtx where
  cfg : GraveyardConfig
  lg : ℚ → ℚ
  idf_source : List GraveyardEntry
  query_keywords : Finset String
  query_token_set : Finset String
  query_files : Finset String

/-- `sum(query_idf.values()) or 1.0`: total query IDF mass, `1` when zero. -/
def queryWeight (ctx : QueryCtx) : ℚ :=
  let s := ∑ t ∈ ctx.query_keywords, queryIdf ctx.lg ctx.idf_source t
  if s = 0 then 1 else s

/-- Per-candidate body of the `find_similar` loop: gate, combined score,
final threshold filter; `none` when the entry is discarded. -/
def scoreEntry (ctx : QueryCtx) (e : GraveyardEntry) : Option GraveyardMatch :=
  let entry_keywords := entryKeywordSet e
  let entry_tokens := (tokenize (e.summary ++ " " ++ e.reason)).toFinset
  let entry_files := (e.files.map norm_path).toFinset
  let keyword_overlap := sortedList (ctx.query_keywords ∩ entry_keywords)
  let file_overlap := sortedList (ctx.query_files ∩ entry_files)
  let keyword_score :=
    (∑ t ∈ ctx.query_keywords ∩ entry_keywords, queryIdf ctx.lg ctx.idf_source t) /
      queryWeight ctx
  let file_score : ℚ :=
    if ctx.query_files ≠ ∅ then
      (file_overlap.length : ℚ) / (max 1 ctx.query_files.card : ℚ)
    else 0
  let semantic_score := token_jaccard ctx.query_token_set entry_tokens
  if keyword_overlap.length < ctx.cfg.min_keyword_overlap ∧ file_overlap = [] ∧
      semantic_score < ctx.cfg.similarity_threshold then
    none
  else
    let score := keyword_score * (45 / 100) + file_score * (25 / 100) +
      semantic_score * (30 / 100)
    if score < ctx.cfg.similarity_threshold then none
    else
      some
        { entry_id := e.id
          score := score
          summary := e.summary
          reason := e.reason
          files := e.files
          keyword_overlap := keyword_overlap
          file_overlap := file_overlap
          semantic_score := semantic_score
          created_at := e.created_at }

/-- Comparison used by `scored.sort(key=lambda m: (m.score, m.entry_id),
reverse=True)`: descending lexicographic on (score, entry id).  Python's
sort is stable; a stable insertion sort over this (total, transitive)
relation produces the same list. -/
def matchRel (a b : GraveyardMatch) : Prop :=
  b.score < a.score ∨ (b.score = a.score ∧ b.entry_id ≤ a.entry_id)

instance : DecidableRel matchRel := fun a b => by
  unfold matchRel; infer_instance

instance : IsTotal GraveyardMatch matchRel where
  total a b := by
    unfold matchRel
    rcases lt_trichotomy a.score b.score with h | h | h
    · exact Or.inr (Or.inl h)
    · rcases le_total b.entry_id a.entry_id with h' | h'
      · exact Or.inl (Or.inr ⟨h.symm, h'⟩)
      · exact Or.inr (Or.inr ⟨h, h'⟩)
    · exact Or.inl (Or.inl h)

instance : IsTrans GraveyardMatch matchRel where
  trans a b c hab hbc := by
    unfold matchRel at *
    rcases hab with h | ⟨he, hi⟩ <;> rcases hbc with h' | ⟨he', hi'⟩
    · exact Or.inl (h'.trans h)
    · exact Or.inl (he'.trans_lt h)
    · exact Or.inl (h'.trans_eq he)
    · exact Or.inr ⟨he'.trans he, hi'.trans hi⟩

/-- Effective result cap `max_matches or self.config.max_matches`
(Python `or`: `None` and `0` both fall back to the configured cap). -/
def effectiveCap (cfg : GraveyardConfig) (mm : Option Nat) : Nat :=
  match mm with
  | none => cfg.max_matches
  | some k => if k = 0 then cfg.max_matches else k

/-- The scoring context `find_similar` builds for a query. -/
def queryCtx (cfg : GraveyardConfig) (st : StoreModel) (lg : ℚ → ℚ)
    (summary : String) (files : List String) : QueryCtx :=
  let query_tokens := tokenize summary
  let corpus_entries := st.window
  let entries := load_candidate_entries st query_tokens
  { cfg := cfg
    lg := lg
    idf_source := if corpus_entries.isEmpty then entries else corpus_entries
    query_keywords := keywordsOf summary
    query_token_set := query_tokens.toFinset
    query_files := ((files.filter (fun p => p ≠ "")).map norm_path).toFinset }

/-- `Graveyard.find_similar`, over a store snapshot.  Disabled configs and
empty queries short-circuit to `[]`; candidates are scored, gated, sorted by
(score desc, id desc) and truncated. -/
def find_similar (cfg : GraveyardConfig) (st : StoreModel) (lg : ℚ → ℚ)
    (summary : String) (files : List String) (mm : Option Nat) :
    List GraveyardMatch :=
  if ¬cfg.enabled then []
  else
    let query_tokens := tokenize summary
    let query_files := ((files.filter (fun p => p ≠ "")).map norm_path).toFinset
    if query_tokens.isEmpty ∧ query_files = ∅ then []
    else
      let ctx := queryCtx cfg st lg summary files
      let entries := load_candidate_entries st query_tokens
      let scored := entries.filterMap (scoreEntry ctx)
      (scored.insertionSort matchRel).take (effectiveCap cfg mm)

/-- `Graveyard.record_failure` acting on the store table (append-only insert
through `SQLiteStore.insert_graveyard`; id and timestamp are assigned by the
store).  Disabled configs leave the table untouched. -/
def record_failure (cfg : GraveyardConfig) (table : List GraveyardEntry)
    (summary reason : String) (files : List String) (newId : ℤ)
    (now : String) : List GraveyardEntry :=
  if ¬cfg.enabled then table
  else
    table ++
      [{ id := newId
         summary := summary
         reason := reason
         files := files
         keywords := sortedList (keywordsOf summary ∪ keywordsOf reason)
         created_at := now }]

/-! ## FTS narrowing model (`store.py`) -/

/-- `_FTS_TOKEN_RE`: a valid MATCH term is a nonempty run of lowercase
ASCII letters, digits, or underscore. -/
def isFtsTerm (s : String) : Bool :=
  ¬s.data.isEmpty ∧
    s.data.all (fun c => ('a' ≤ c ∧ c ≤ 'z') ∨ ('0' ≤ c ∧ c ≤ '9') ∨ c = '_')

/-- FTS5 default-tokenizer character class (alphanumeric; punctuation such
as quotes, brackets and commas separates tokens). -/
def isFtsChar (c : Char) : Bool :=
  ('a' ≤ c ∧ c ≤ 'z') ∨ ('A' ≤ c ∧ c ≤ 'Z') ∨ ('0' ≤ c ∧ c ≤ '9')

/-- Maximal alphanumeric runs, lower-cased: the tokens FTS5 indexes for a
document (`cur` accumulates the current run in reverse). -/
def ftsRunsAux : List Char → List Char → List (List Char)
  | [], cur => if cur.isEmpty then [] else [cur.reverse]
  | c :: rest, cur =>
    if isFtsChar c then ftsRunsAux rest (c :: cur)
    else if cur.isEmpty then ftsRunsAux rest [] else cur.reverse :: ftsRunsAux rest []

/-- Indexed token list of one graveyard row: the row text is
`f"{summary} {reason} {keywords_json}"`; JSON punctuation is an FTS token
separator, so tokenizing the keywords joined by spaces yields the same
token set as tokenizing the JSON rendering. -/
def ftsDocTokens (e : GraveyardEntry) : List String :=
  (ftsRunsAux
      (e.summary.data ++ ' ' :: e.reason.data ++ ' ' ::
        (List.intercalate [' '] (e.keywords.map String.data))) []).map
    (fun run => ⟨run.map Char.toLower⟩)

/-- `SQLiteStore.list_graveyard_fts_candidates` over a window snapshot:
filter terms through the token regex; empty terms or an empty window give
`[]` (falsy, so the caller full-scans); an unavailable FTS module gives
`none` ("unsupported"); otherwise the rows of the window whose indexed text
matches any of the first 12 terms, capped at `candidate_limit`.  The bm25
relevance ordering of the candidate rows is runtime SQLite scoring and is
abstracted to window order here; `find_similar` re-sorts every match, so
only candidate membership is observable downstream (the cap is only reached
past 80 matching rows). -/
def list_graveyard_fts_candidates (window : List GraveyardEntry)
    (tokens : List String) (candidate_limit : Nat) (ftsAvailable : Bool) :
    Option (List GraveyardEntry) :=
  let terms := tokens.filter isFtsTerm
  if terms.isEmpty ∨ window.isEmpty then some []
  else if ¬ftsAvailable then none
  else
    some
      ((window.filter (fun e =>
          (terms.take 12).any (fun t => (ftsDocTokens e).contains t))).take
        (max 1 candidate_limit))

/-- A store whose narrowing capability is the modelled SQLite FTS path. -/
def ftsStore (window : List GraveyardEntry) : StoreModel :=
  { window := window
    fts := fun tokens => list_graveyard_fts_candidates window tokens 80 true }

/-- The same window with the narrowing capability forced to report
"unsupported", as in the fallback-equivalence spec example. -/
def unsupportedStore (window : List GraveyardEntry) : StoreModel :=
  { window := window, fts := fun _ => none }

/-! ## Repo-map text renderer (`repomap.py`) -/

/-- UTF-8 encoded byte length of a string
(`len(text.encode("utf-8"))`). -/
def byteLen (s : String) : Nat :=
  (s.data.map Char.utf8Size).sum

/-- `RepoMapRankingEntry` (scores are rationals here; see the header). -/
structure RankingEntry where
  path : String
  score : ℚ
  symbols : List String
deriving DecidableEq

/-- `RepoMapFileAnalysis`. -/
structure FileAnalysis where
  path : String
  byte_size : Nat
  line_count : Nat
  symbols : List String
  symbol_count : Nat
  imports : List String
deriving DecidableEq

/-- `_render_entry_chunk`.  `fmt` abstracts Python's `f"{score:.3f}"`
floating-point rendering; no claim under study depends on the digits. -/
def render_entry_chunk (fmt : ℚ → String) (e : RankingEntry) : String :=
  e.path ++ " (" ++ fmt e.score ++ ")\n" ++
    ⟨(e.symbols.map (fun s => "  - ".data ++ s.data ++ ['\n'])).flatten⟩

/-- Longest prefix of the character list whose UTF-8 encoding fits in
`budget` bytes (each character is accepted only if it fits whole). -/
def takeUtf8 : List Char → Nat → List Char
  | [], _ => []
  | c :: rest, budget =>
    if c.utf8Size ≤ budget then c :: takeUtf8 rest (budget - c.utf8Size)
    else []

/-- `_truncate_utf8`: clip the encoded bytes to `max_bytes`, then back off
to the previous character boundary.  On valid UTF-8 input (all Python
`str`s) that is exactly the longest character prefix whose encoding fits;
`max_bytes <= 0` yields the empty string (the `Nat` argument folds the
explicit non-positive guard of the source into `takeUtf8 _ 0 = []`). -/
def truncate_utf8 (text : String) (max_bytes : Nat) : String :=
  ⟨takeUtf8 text.data max_bytes⟩

/-- The truncation note
`f"... (truncated, showing {len(chunks)}/{total} files within {budget} bytes)\n"`. -/
def noteFor (shown total budget : Nat) : String :=
  "... (truncated, showing " ++ toString shown ++ "/" ++ toString total ++
    " files within " ++ toString budget ++ " bytes)\n"

/-- First loop of `_render_text`: accept entry chunks in rank order while
they fit, returning the accepted `(chunk, chunk_bytes)` pairs, the running
byte total, and whether rendering stopped early (`truncated`). -/
def takeChunks (fmt : ℚ → String) (budget : Nat) :
    List RankingEntry → Nat → List (String × Nat) × Nat × Bool
  | [], used => ([], used, false)
  | e :: rest, used =>
    let chunk := render_entry_chunk fmt e
    let cb := byteLen chunk
    if budget < used + cb then ([], used, true)
    else
      let r := takeChunks fmt budget rest (used + cb)
      ((chunk, cb) :: r.1, r.2.1, r.2.2)

/-- Second loop of `_render_text`, fuelled: drop already-accepted tail
chunks until the (recomputed) truncation note fits.  Each iteration of the
source's `while` loop removes one chunk, so the loop runs at most
`len(chunks)` times; the fuel makes that bound explicit and the recursion
structural. -/
def shrinkChunksFuel (budget total : Nat) :
    Nat → List (String × Nat) → Nat → List (String × Nat) × Nat
  | 0, chunks, used => (chunks, used)
  | fuel + 1, chunks, used =>
    if chunks ≠ [] ∧ budget < used + byteLen (noteFor chunks.length total budget) then
      shrinkChunksFuel budget total fuel chunks.dropLast
        (used - (chunks.getLastD ("", 0)).2)
    else (chunks, used)

/-- Second loop of `_render_text` (fuel instantiated to the loop's
iteration bound). -/
def shrinkChunks (budget total : Nat) (chunks : List (String × Nat))
    (used : Nat) : List (String × Nat) × Nat :=
  shrinkChunksFuel budget total chunks.length chunks used

/-- Concatenation of the accepted chunks (`"".join`). -/
def joinChunks (chunks : List (String × Nat)) : String :=
  ⟨(chunks.map (fun c => c.1.data)).flatten⟩

/-- `_render_text`: byte-budgeted rendering with truncation-note insertion,
tail shrinking, and last-resort note truncation. -/
def render_text (fmt : ℚ → String) (ranking : List RankingEntry)
    (max_text_bytes : Nat) : String :=
  if ranking.isEmpty then ""
  else
    let budget := max 256 max_text_bytes
    let total := ranking.length
    let r := takeChunks fmt budget ranking 0
    if r.2.2 then
      let s := shrinkChunks budget total r.1 r.2.1
      let note := noteFor s.1.length total budget
      let nb := byteLen note
      if s.2 + nb ≤ budget then joinChunks (s.1 ++ [(note, nb)])
      else truncate_utf8 note budget
    else joinChunks r.1

/-! ## Repo-map ranking heuristic (`repomap.py`) -/

/-- `path.replace` of backslashes by forward slashes. -/
def pathRepl (p : String) : String :=
  ⟨p.data.map (fun c => if c = '\\' then '/' else c)⟩

/-- `pathlib.PurePath.parts` for the relative, already-normalized paths the
engine ranks: slash segments with empty and `.` segments dropped. -/
def pathParts (p : String) : List String :=
  ((splitSeg '/' p.data []).filter (fun s => s ≠ [] ∧ s ≠ ['.'])).map
    (fun cs => (⟨cs⟩ : String))

/-- `Path(p).name`: the final path segment. -/
def fileName (p : String) : String :=
  (pathParts p).getLastD ""

/-- `Path(p).stem` and `Path(p).suffix`: split the name at its last dot,
provided that dot is neither leading nor trailing (CPython's rule). -/
def splitStemSuffix (name : String) : String × String :=
  let cs := name.data
  let dotIdxs := (List.range cs.length).filter (fun i => cs.getD i ' ' = '.')
  match dotIdxs.getLast? with
  | some i =>
    if 0 < i ∧ i < cs.length - 1 then (⟨cs.take i⟩, ⟨cs.drop i⟩)
    else (name, "")
  | none => (name, "")

/-- Python `str.lower()` (ASCII case fold suffices for the table keys). -/
def lowerStr (s : String) : String :=
  ⟨s.data.map Char.toLower⟩

/-- Python `pat in stem` (substring containment). -/
def hasSubstr : List Char → List Char → Bool
  | hay, pat =>
    pat.isPrefixOf hay ||
      match hay with
      | [] => false
      | _ :: t => hasSubstr t pat

/-- Python `str.startswith` on character lists. -/
def startsWithL (cs pre : List Char) : Bool :=
  pre.isPrefixOf cs

/-- `_CODE_LIKE_SUFFIXES`. -/
def code_like_suffixes : List String :=
  [".astro", ".svelte", ".vue", ".py", ".pyi", ".js", ".jsx", ".ts", ".tsx",
   ".mjs", ".cjs", ".java", ".kt", ".go", ".rs", ".rb", ".php", ".c", ".cc",
   ".cpp", ".h", ".hpp", ".cs", ".swift", ".scala", ".lua", ".sh", ".bash",
   ".zsh", ".ps1", ".toml", ".yaml", ".yml", ".json", ".sql", ".md", ".html",
   ".css", ".scss"]

/-- `_RANK_SUFFIX_BOOSTS`. -/
def rank_suffix_boosts : List (String × ℚ) :=
  [(".astro", 9 / 10), (".tsx", 5 / 10), (".jsx", 4 / 10)]

/-- `_RANK_EXACT_FILENAME_PENALTIES`. -/
def rank_exact_filename_penalties : List (String × ℚ) :=
  [("package-lock.json", 18 / 10), ("pnpm-lock.yaml", 18 / 10),
   ("yarn.lock", 18 / 10), ("poetry.lock", 14 / 10), ("cargo.lock", 14 / 10),
   ("composer.lock", 12 / 10)]

/-- `_RANK_NAME_BOOSTS`. -/
def rank_name_boosts : List (String × ℚ) :=
  [("core", 9 / 10), ("main", 8 / 10), ("app", 7 / 10), ("index", 6 / 10),
   ("server", 7 / 10), ("client", 5 / 10), ("api", 6 / 10),
   ("router", 5 / 10), ("service", 4 / 10), ("model", 3 / 10),
   ("store", 3 / 10)]

/-- `_RANK_PATH_PENALTIES`. -/
def rank_path_penalties : List (String × ℚ) :=
  [("tests", 85 / 100), ("test", 85 / 100), ("docs", 65 / 100),
   ("examples", 7 / 10), ("scripts", 8 / 10), ("migrations", 8 / 10)]

/-- `_RANK_PATH_BOOSTS`. -/
def rank_path_boosts : List (String × ℚ) :=
  [("src", 15 / 100), ("components", 2 / 10), ("pages", 2 / 10),
   ("layouts", 15 / 100)]

/-- `dict.get(key, 0.0)` over one of the fixed tables. -/
def lookupQ (tbl : List (String × ℚ)) (k : String) : ℚ :=
  match tbl.find? (fun p => p.1 = k) with
  | some p => p.2
  | none => 0

/-- The stem-boost loop of `_rank_files`: a boost for every conventional
name the stem equals, starts with (`name_`), or ends with (`_name`). -/
def sumNameBoosts (stem : String) : ℚ :=
  (rank_name_boosts.map (fun nb =>
      if stem = nb.1 ∨ startsWithL stem.data (nb.1.data ++ ['_'])
          ∨ endsWithL stem.data ('_' :: nb.1.data) then
        nb.2
      else 0)).sum

/-- The directory-segment loop of `_rank_files`: per non-final path
segment, the conventional-directory boost minus the penalty. -/
def sumDirAdjust (dirs : List String) : ℚ :=
  (dirs.map (fun part =>
      lookupQ rank_path_boosts (lowerStr part) -
        lookupQ rank_path_penalties (lowerStr part))).sum

/-- The focus bonus of `_rank_files`: a large bonus for an exact path
match, a smaller one for a basename-only match. -/
def focusBonus (focus : List String) (path : String) : ℚ :=
  let focusSet := focus.map pathRepl
  if path ∈ focusSet then 25
  else if fileName path ∈ focusSet.map fileName then 4
  else 0

/-- The per-file score of `_rank_files` before the zero floor: base 1.0
plus every signal bonus/penalty of the source, in source order. -/
def rank_score (focus : List String) (graphScores : String → ℚ)
    (a : FileAnalysis) : ℚ :=
  let path := pathRepl a.path
  let name := fileName path
  let stemSuffix := splitStemSuffix name
  let suffix := lowerStr stemSuffix.2
  let stem := lowerStr stemSuffix.1
  let depth : Nat := path.data.count '/'
  1 + (if suffix ∈ code_like_suffixes then 16 / 10 else 0) +
    lookupQ rank_suffix_boosts suffix +
    focusBonus focus path +
    max 0 (8 / 10 - (min depth 10 : ℚ) * (8 / 100)) +
    min (15 / 10) ((a.symbol_count : ℚ) * (2 / 10)) +
    min (8 / 10) ((a.line_count : ℚ) / 400) +
    sumNameBoosts stem +
    sumDirAdjust (pathParts path).dropLast -
    lookupQ rank_exact_filename_penalties (lowerStr name) -
    (if hasSubstr stem.data "generated".data ∨ hasSubstr stem.data "snapshot".data
      then 4 / 10 else 0) +
    2 * max 0 (graphScores path)

/-- The ranking entry `_rank_files` appends for one analysis (score floored
at zero). -/
def rankEntryOf (focus : List String) (graphScores : String → ℚ)
    (a : FileAnalysis) : RankingEntry :=
  { path := pathRepl a.path
    score := max 0 (rank_score focus graphScores a)
    symbols := a.symbols }

/-- Ascending-key comparison of `scored.sort(key=lambda item:
(-item.score, item.path))`: higher score first, ties by path.  Python's
sort is stable; a stable insertion sort over this (total, transitive)
relation produces the same list. -/
def entryRel (a b : RankingEntry) : Prop :=
  b.score < a.score ∨ (b.score = a.score ∧ a.path ≤ b.path)

instance : DecidableRel entryRel := fun a b => by
  unfold entryRel; infer_instance

instance : IsTotal RankingEntry entryRel where
  total a b := by
    unfold entryRel
    rcases lt_trichotomy a.score b.score with h | h | h
    · exact Or.inr (Or.inl h)
    · rcases le_total a.path b.path with h' | h'
      · exact Or.inl (Or.inr ⟨h.symm, h'⟩)
      · exact Or.inr (Or.inr ⟨h, h'⟩)
    · exact Or.inl (Or.inl h)

instance : IsTrans RankingEntry entryRel where
  trans a b c hab hbc := by
    unfold entryRel at *
    rcases hab with h | ⟨he, hi⟩ <;> rcases hbc with h' | ⟨he', hi'⟩
    · exact Or.inl (h'.trans h)
    · exact Or.inl (he'.trans_lt h)
    · exact Or.inl (h'.trans_eq he)
    · exact Or.inr ⟨he'.trans he, hi.trans hi'⟩

/-- `_rank_files`: score every analysis, floor at zero, sort by
(score desc, path asc), truncate to the caller's cap. -/
def rank_files (analyses : List FileAnalysis) (focus : List String)
    (max_files : Nat) (graphScores : String → ℚ) : List RankingEntry :=
  ((analyses.map (rankEntryOf focus graphScores)).insertionSort
      entryRel).take max_files

/-! ## PageRank rescale (`repomap.py`) -/

/-- Python `max(values, default=0.0)`. -/
def listMax : List ℚ → ℚ
  | [] => 0
  | [x] => x
  | x :: y :: rest => max x (listMax (y :: rest))

/-- `_pagerank_scores_with_backend`, with the raw backend output (networkx
or the pure power iteration, both of which return one value per node)
abstracted as `raw` and the backend tag as `backend`: empty node lists give
an empty result; a non-positive peak gives all zeros; otherwise every score
is divided by the peak. -/
def pagerank_scores_with_backend (paths : List String) (raw : String → ℚ)
    (backend : String) : List (String × ℚ) × String :=
  if paths.isEmpty then ([], "none")
  else
    let peak := listMax (paths.map raw)
    if peak ≤ 0 then (paths.map (fun p => (p, 0)), backend)
    else (paths.map (fun p => (p, raw p / peak)), backend)

/-! ## Repo-map orchestrator (`repomap.py`) -/

/-- The four error payload fields of a repo-map failure artifact. -/
structure RepoMapError where
  code : String
  message : String
  retryable : Bool
  failed_stage : String
deriving DecidableEq

/-- The `stats` block of an artifact. -/
structure RepoMapStats where
  files_parsed : Nat
  symbols_found : Nat
  graph_edges : Nat
  byte_count : Nat
deriving DecidableEq

/-- `RepoMapArtifact`, restricted to the machine-checked fields: `ok`,
`stats`, `ranking`, `text` and the optional `error` object.  The
`generated_at` timestamp and the provenance block are wall-clock /
environment data with no claim content. -/
structure RepoMapArtifact where
  ok : Bool
  stats : RepoMapStats
  ranking : List RankingEntry
  text : String
  error : Option RepoMapError
deriving DecidableEq

/-- `_failure_artifact`: zeroed stats, empty ranking and text, `ok=False`,
and the error object with the stable code, message, retryable flag
(all four production codes are retryable) and stage marker. -/
def failure_artifact (code message failed_stage : String) : RepoMapArtifact :=
  { ok := false
    stats := { files_parsed := 0, symbols_found := 0, graph_edges := 0, byte_count := 0 }
    ranking := []
    text := ""
    error :=
      some
        { code := code
          message := message
          retryable := code ∈ ["deps_missing", "timeout", "scan_failed", "write_failed"]
          failed_stage := failed_stage } }

/-- `_timed_out`: no budget means no enforcement; a non-positive budget is
already expired; otherwise compare the elapsed duration to the budget. -/
def timed_out (duration_ms : Nat) (timeout_ms : Option Int) : Bool :=
  match timeout_ms with
  | none => false
  | some t => if t ≤ 0 then true else (duration_ms : Int) > t

/-- The effectful outcomes one `run_repomap` call observes, fixed up front:
whether the resolved root exists and is a directory, the elapsed duration
at the pre-discovery timeout check, the durations at each timeout
checkpoint inside the discovery walk, discovery's result (an OSError
message or the analyzed files), the dependency-edge count and graph scores
of the AST stage (abstracted; no claim depends on import resolution), and
whether the artifact write succeeds. -/
structure RunEnv where
  rootOk : Bool
  preCheckDuration : Nat
  discCheckDurations : List Nat
  discResult : Except String (List FileAnalysis)
  edgeCount : Nat
  graphScores : String → ℚ
  writeOk : Bool

/-- `run_repomap`, as the artifact the returned `RepoMapRunResult` carries:
root check, pre-discovery timeout check, discovery (whose internal
checkpoints raise `TimeoutError` exactly when the injected predicate
fires), analysis, ranking, rendering, assembly, and the artifact write —
each failure short-circuiting to `_failure_artifact`. -/
def run_repomap (env : RunEnv) (timeout_ms : Option Int)
    (focus_files : List String) (max_files : Nat) (max_text_bytes : Nat)
    (fmt : ℚ → String) : RepoMapArtifact :=
  if ¬env.rootOk then
    failure_artifact "scan_failed"
      "Project root does not exist or is not a directory" "discovery"
  else if timed_out env.preCheckDuration timeout_ms then
    failure_artifact "timeout"
      "Repo-map generation timed out before discovery started." "discovery"
  else if env.discCheckDurations.any (fun d => timed_out d timeout_ms) then
    failure_artifact "timeout"
      "Repo-map generation timed out during file discovery." "discovery"
  else
    match env.discResult with
    | .error msg =>
      failure_artifact "scan_failed" ("Failed during file discovery: " ++ msg)
        "discovery"
    | .ok analyses =>
      let ranking :=
        rank_files analyses focus_files (max 1 max_files) env.graphScores
      let text := render_text fmt ranking (max 256 max_text_bytes)
      let artifact : RepoMapArtifact :=
        { ok := true
          stats :=
            { files_parsed := analyses.length
              symbols_found := (analyses.map (fun a => a.symbol_count)).sum
              graph_edges := env.edgeCount
              byte_count := byteLen text }
          ranking := ranking
          text := text
          error := none }
      if env.writeOk then artifact
      else
        failure_artifact "write_failed" "Failed to write repo-map artifact"
          "write"

/-! ## A concrete retrieval scenario for the narrowing/fallback comparison -/

/-- A stored record whose summary and keywords share the token "alpha"
with the query below, so the indexed narrowing keeps it. -/
def gy_e1 : GraveyardEntry :=
  { id := 1
    summary := "alpha"
    reason := ""
    files := []
    keywords := ["alpha"]
    created_at := "t1" }

/-- A stored record sharing no indexed text with the query below; its only
link to the query is the file "x.py", which the FTS index never sees. -/
def gy_e2 : GraveyardEntry :=
  { id := 2
    summary := "beta"
    reason := ""
    files := ["x.py"]
    keywords := ["beta"]
    created_at := "t2" }

/-- The recent window (id-descending, as `list_graveyard` returns it). -/
def gy_window : List GraveyardEntry := [gy_e2, gy_e1]

/-- An enabled config whose threshold 0.2 admits a pure file-overlap match
(combined score 0.25). -/
def gy_cfg : GraveyardConfig :=
  { enabled := true
    max_matches := 5
    similarity_threshold := 1 / 5
    min_keyword_overlap := 1 }

/-- Constant-zero stand-in for `math.log` (consistent: the scenario only
uses that the weights it induces are nonnegative). -/
def lgZero : ℚ → ℚ := fun _ => 0

/-- The scoring context of the query (summary "alpha", files ["x.py"])
over the two-record window. -/
def gy_ctx : QueryCtx :=
  queryCtx gy_cfg (unsupportedStore gy_window) lgZero "alpha" ["x.py"]

/-- The match the full scan produces for the file-overlap-only record:
keyword and semantic components are 0, the file component is 1, so the
combined score is 0.25. -/
def gy_m2 : GraveyardMatch :=
  { entry_id := 2
    score := 1 / 4
    summary := "beta"
    reason := ""
    files := ["x.py"]
    keyword_overlap := []
    file_overlap := ["x.py"]
    semantic_score := 0
    created_at := "t2" }

/-! ## Claim theorems -/

/-- C3 (counterexample): the claim says every word of the synonym table
normalizes to its stated canonical form, but stemming runs before the
synonym lookup: "redis" loses its final "s" and becomes "redi" (never
"cache"), "caching" loses "ing" and becomes "cach", and "slowness" loses
its final "s" and becomes "slownes" (never "timeout"). -/
theorem normalize_token_synonym_counterexample :
    normalize_token "redis" = "redi" ∧ normalize_token "redis" ≠ "cache" ∧
      normalize_token "caching" = "cach" ∧ normalize_token "caching" ≠ "cache" ∧
      normalize_token "slowness" = "slownes" ∧
      normalize_token "slowness" ≠ "timeout" := by
  decide

/-- C3 (amended): of the fifteen synonym-table words, the twelve whose
stemmed form is still a table key normalize to their stated canonical form;
"redis", "caching" and "slowness" are stemmed to "redi", "cach" and
"slownes" first, which the table does not map. -/
theorem normalize_token_synonym_table :
    normalize_token "latency" = "timeout" ∧ normalize_token "slow" = "timeout" ∧
      normalize_token "crash" = "fail" ∧ normalize_token "crashed" = "fail" ∧
      normalize_token "failure" = "fail" ∧ normalize_token "failed" = "fail" ∧
      normalize_token "error" = "fail" ∧ normalize_token "errors" = "fail" ∧
      normalize_token "exception" = "fail" ∧
      normalize_token "exceptions" = "fail" ∧
      normalize_token "connection" = "connect" ∧
      normalize_token "connections" = "connect" ∧
      normalize_token "redis" = "redi" ∧ normalize_token "caching" = "cach" ∧
      normalize_token "slowness" = "slownes" := by
  decide

/-- C10: with the graveyard disabled, `record_failure` leaves the store
table untouched for every input, and `find_similar` returns the empty match
list for every query against every store snapshot (so in particular its
result never depends on the store). -/
theorem graveyard_disabled_frame (cfg : GraveyardConfig)
    (h : cfg.enabled = false) :
    (∀ table summary reason files newId now,
        record_failure cfg table summary reason files newId now = table) ∧
      (∀ st lg summary files mm,
        find_similar cfg st lg summary files mm = []) := by
  constructor
  · intro table summary reason files newId now
    simp [record_failure, h]
  · intro st lg summary files mm
    simp [find_similar, h]

/-- C10 witness: a concrete disabled configuration. -/
theorem graveyard_disabled_frame_witness :
    ({ enabled := false : GraveyardConfig }).enabled = false ∧
      (∀ table summary reason files newId now,
        record_failure { enabled := false } table summary reason files newId
            now = table) ∧
      (∀ st lg summary files mm,
        find_similar { enabled := false } st lg summary files mm = []) :=
  ⟨rfl, (graveyard_disabled_frame { enabled := false } rfl).1,
    (graveyard_disabled_frame { enabled := false } rfl).2⟩

/-- Shared helper: every failure artifact carries zeroed stats, an empty
ranking and text, and a fully populated error object. -/
theorem failure_artifact_fields (code message failed_stage : String) :
    (failure_artifact code message failed_stage).ok = false ∧
      (failure_artifact code message failed_stage).stats =
        { files_parsed := 0, symbols_found := 0, graph_edges := 0, byte_count := 0 } ∧
      (failure_artifact code message failed_stage).ranking = [] ∧
      (failure_artifact code message failed_stage).text = "" ∧
      (failure_artifact code message failed_stage).error =
        some
          { code := code
            message := message
            retryable :=
              code ∈ ["deps_missing", "timeout", "scan_failed", "write_failed"]
            failed_stage := failed_stage } := by
  exact ⟨rfl, rfl, rfl, rfl, rfl⟩

/-- C1: every repo-map run that ends with `ok = false` — missing or
non-directory root, pre-discovery timeout, in-discovery timeout, discovery
filesystem error, or artifact-write failure — produces an artifact with
all-zero stats, an empty ranking, empty text, and a populated error object
whose code is one of the stable production codes, whose stage marker is
`discovery` or `write`, and whose retryable flag is set. -/
theorem repomap_failure_artifacts_empty (env : RunEnv) (t : Option Int)
    (focus : List String) (mf mt : Nat) (fmt : ℚ → String)
    (h : (run_repomap env t focus mf mt fmt).ok = false) :
    (run_repomap env t focus mf mt fmt).stats =
        { files_parsed := 0, symbols_found := 0, graph_edges := 0, byte_count := 0 } ∧
      (run_repomap env t focus mf mt fmt).ranking = [] ∧
      (run_repomap env t focus mf mt fmt).text = "" ∧
      ∃ e, (run_repomap env t focus mf mt fmt).error = some e ∧
        e.code ∈ ["scan_failed", "timeout", "write_failed"] ∧
        e.failed_stage ∈ ["discovery", "write"] ∧ e.retryable = true := by
  unfold run_repomap at h ⊢
  by_cases h1 : env.rootOk
  · simp only [h1, not_true_eq_false, if_false] at h ⊢
    by_cases h2 : timed_out env.preCheckDuration t
    · simp only [h2, if_true]
      refine ⟨rfl, rfl, rfl, ⟨_, rfl, by simp [failure_artifact], by simp, by simp [failure_artifact]⟩⟩
    · simp only [h2, if_false] at h ⊢
      by_cases h3 : env.discCheckDurations.any (fun d => timed_out d t)
      · simp only [h3, if_true]
        refine ⟨rfl, rfl, rfl, ⟨_, rfl, by simp, by simp, by simp [failure_artifact]⟩⟩
      · simp only [h3, if_false] at h ⊢
        cases hd : env.discResult with
        | error msg =>
          simp only [hd]
          refine ⟨rfl, rfl, rfl, ⟨_, rfl, by simp, by simp, by simp [failure_artifact]⟩⟩
        | ok analyses =>
          simp only [hd] at h ⊢
          by_cases h4 : env.writeOk
          · simp [h4] at h
          · simp only [h4, if_false]
            refine ⟨rfl, rfl, rfl, ⟨_, rfl, by simp, by simp, by simp [failure_artifact]⟩⟩
  · simp only [h1, not_false_eq_true, if_true]
    refine ⟨rfl, rfl, rfl, ⟨_, rfl, by simp, by simp, by simp [failure_artifact]⟩⟩

/-- C1 witness: a run against a missing root fails, and the theorem then
delivers the empty-stats invariant for it. -/
theorem repomap_failure_artifacts_empty_witness :
    (run_repomap
          { rootOk := false, preCheckDuration := 0, discCheckDurations := [],
            discResult := .ok [], edgeCount := 0, graphScores := fun _ => 0,
            writeOk := true }
          none [] 1 256 (fun _ => "")).ok = false ∧
      (run_repomap
          { rootOk := false, preCheckDuration := 0, discCheckDurations := [],
            discResult := .ok [], edgeCount := 0, graphScores := fun _ => 0,
            writeOk := true }
          none [] 1 256 (fun _ => "")).stats =
        { files_parsed := 0, symbols_found := 0, graph_edges := 0, byte_count := 0 } :=
  ⟨rfl,
    (repomap_failure_artifacts_empty
        { rootOk := false, preCheckDuration := 0, discCheckDurations := [],
          discResult := .ok [], edgeCount := 0, graphScores := fun _ => 0,
          writeOk := true }
        none [] 1 256 (fun _ => "") rfl).1⟩

/-- C8 (counterexample): the claim promises error code `timeout` for every
run with a non-positive timeout budget, but the root-existence check runs
first: with a missing root and `timeout_ms = 0` the artifact carries code
`scan_failed`, not `timeout`. -/
theorem repomap_zero_timeout_counterexample :
    (run_repomap
          { rootOk := false, preCheckDuration := 0, discCheckDurations := [],
            discResult := .ok [], edgeCount := 0, graphScores := fun _ => 0,
            writeOk := true }
          (some 0) [] 1 256 (fun _ => "")).error.map (fun e => e.code) =
        some "scan_failed" ∧
      (run_repomap
          { rootOk := false, preCheckDuration := 0, discCheckDurations := [],
            discResult := .ok [], edgeCount := 0, graphScores := fun _ => 0,
            writeOk := true }
          (some 0) [] 1 256 (fun _ => "")).error.map (fun e => e.code) ≠
        some "timeout" := by
  constructor
  · rfl
  · intro h
    simp [run_repomap, failure_artifact] at h

/-- C8 (amended): provided the root exists and is a directory, a
non-positive timeout budget short-circuits — before discovery or analysis
touches any file — to the `ok=false` artifact with code `timeout` and
failed stage `discovery` (the artifact is the same whatever discovery or
write would have done); with no budget (`None`) the timeout predicate never
fires and no run can fail with a timeout. -/
theorem repomap_timeout_budget (env : RunEnv) (t : Int) (focus : List String)
    (mf mt : Nat) (fmt : ℚ → String) (hroot : env.rootOk = true)
    (ht : t ≤ 0) :
    run_repomap env (some t) focus mf mt fmt =
        failure_artifact "timeout"
          "Repo-map generation timed out before discovery started."
          "discovery" ∧
      (∀ d, timed_out d none = false) ∧
      (∀ env' focus' mf' mt' fmt' e,
        (run_repomap env' none focus' mf' mt' fmt').error = some e →
          e.code ≠ "timeout") := by
  refine ⟨?_, fun d => rfl, ?_⟩
  · have hto : timed_out env.preCheckDuration (some t) = true := by
      simp [timed_out, ht]
    simp [run_repomap, hroot, hto]
  · intro env' focus' mf' mt' fmt' e he
    unfold run_repomap at he
    by_cases h1 : env'.rootOk
    · simp only [h1, not_true_eq_false, if_false, timed_out, List.any_eq_true] at he
      simp only [show (∃ x ∈ env'.discCheckDurations, false = true) = False by simp,
        if_false] at he
      cases hd : env'.discResult with
      | error msg =>
        simp only [hd, failure_artifact, Option.some.injEq] at he
        cases he
        simp
      | ok analyses =>
        simp only [hd] at he
        by_cases h4 : env'.writeOk
        · simp [h4] at he
        · simp only [h4, if_false, failure_artifact, Option.some.injEq] at he
          cases he
          simp
    · simp only [h1, not_false_eq_true, if_true, failure_artifact,
        Option.some.injEq] at he
      cases he
      simp

/-- C8 witness: a concrete run with a good root and an already-expired
budget of `0` milliseconds yields exactly the timeout failure artifact. -/
theorem repomap_timeout_budget_witness :
    run_repomap
        { rootOk := true, preCheckDuration := 0, discCheckDurations := [],
          discResult := .ok [], edgeCount := 0, graphScores := fun _ => 0,
          writeOk := true }
        (some 0) [] 1 256 (fun _ => "") =
      failure_artifact "timeout"
        "Repo-map generation timed out before discovery started."
        "discovery" :=
  (repomap_timeout_budget
      { rootOk := true, preCheckDuration := 0, discCheckDurations := [],
        discResult := .ok [], edgeCount := 0, graphScores := fun _ => 0,
        writeOk := true }
      0 [] 1 256 (fun _ => "") rfl (by decide)).1

/-- Shared helper: `listMax` of a nonempty list is attained. -/
theorem listMax_mem : ∀ (l : List ℚ), l ≠ [] → listMax l ∈ l
  | [x], _ => by simp [listMax]
  | x :: y :: rest, _ => by
    have ih := listMax_mem (y :: rest) (by simp)
    simp only [listMax]
    rcases max_cases x (listMax (y :: rest)) with ⟨he, _⟩ | ⟨he, _⟩
    · simp [he]
    · simp only [he]
      exact List.mem_cons_of_mem x ih

/-- Shared helper: `listMax` bounds every element. -/
theorem le_listMax : ∀ (l : List ℚ), ∀ x ∈ l, x ≤ listMax l
  | [x], y, hy => by
    simp only [List.mem_singleton] at hy
    simp [listMax, hy]
  | x :: y :: rest, z, hz => by
    simp only [listMax]
    rcases List.mem_cons.mp hz with h | h
    · exact h ▸ le_max_left _ _
    · exact le_trans (le_listMax (y :: rest) z h) (le_max_right _ _)

/-- C6: for every nonempty node list and every raw backend score
assignment (either backend returns one value per node), the rescaled
output either contains a node scored exactly 1 with every node scored at
most 1 (scores are divided by the attained maximum), or — when no positive
raw score exists — scores every node 0. -/
theorem pagerank_rescale_top_one_or_all_zero (paths : List String)
    (raw : String → ℚ) (backend : String) (h : paths ≠ []) :
    ((∃ pr ∈ (pagerank_scores_with_backend paths raw backend).1, pr.2 = 1) ∧
        ∀ pr ∈ (pagerank_scores_with_backend paths raw backend).1, pr.2 ≤ 1) ∨
      (listMax (paths.map raw) ≤ 0 ∧
        ∀ pr ∈ (pagerank_scores_with_backend paths raw backend).1, pr.2 = 0) := by
  unfold pagerank_scores_with_backend
  have hne : paths.isEmpty = false := by
    simp [List.isEmpty_iff, h]
  simp only [hne, Bool.false_eq_true, if_false]
  by_cases hpeak : listMax (paths.map raw) ≤ 0
  · right
    refine ⟨hpeak, ?_⟩
    simp only [hpeak, if_true]
    intro pr hpr
    rcases List.mem_map.mp hpr with ⟨p, _, hp⟩
    simp [← hp]
  · left
    have hpos : 0 < listMax (paths.map raw) := lt_of_not_ge hpeak
    simp only [hpeak, if_false]
    constructor
    · have hmem := listMax_mem (paths.map raw) (by simp [h])
      rcases List.mem_map.mp hmem with ⟨p, hp, hpe⟩
      exact ⟨(p, raw p / listMax (paths.map raw)),
        List.mem_map.mpr ⟨p, hp, rfl⟩, by
          simp only
          rw [hpe]
          exact div_self (ne_of_gt hpos)⟩
    · intro pr hpr
      rcases List.mem_map.mp hpr with ⟨p, hp, hpe⟩
      have hle : raw p ≤ listMax (paths.map raw) :=
        le_listMax _ _ (List.mem_map.mpr ⟨p, hp, rfl⟩)
      rw [← hpe]
      exact div_le_one_of_le₀ hle (le_of_lt hpos)

/-- C6 witness: a single node with a positive raw score. -/
theorem pagerank_rescale_top_one_or_all_zero_witness :
    (["a"] : List String) ≠ [] ∧
      (((∃ pr ∈ (pagerank_scores_with_backend ["a"] (fun _ => 1) "simple").1,
            pr.2 = 1) ∧
          ∀ pr ∈ (pagerank_scores_with_backend ["a"] (fun _ => 1) "simple").1,
            pr.2 ≤ 1) ∨
        (listMax ((["a"] : List String).map (fun _ => (1 : ℚ))) ≤ 0 ∧
          ∀ pr ∈ (pagerank_scores_with_backend ["a"] (fun _ => 1) "simple").1,
            pr.2 = 0)) :=
  ⟨by decide, pagerank_rescale_top_one_or_all_zero ["a"] (fun _ => 1) "simple"
    (by decide)⟩

/-- Shared helper: UTF-8 length of a packed character list. -/
theorem byteLen_mk (l : List Char) : byteLen ⟨l⟩ = (l.map Char.utf8Size).sum :=
  rfl

/-- Shared helper: the greedy UTF-8 prefix fits in the byte budget. -/
theorem takeUtf8_le : ∀ (cs : List Char) (n : Nat),
    ((takeUtf8 cs n).map Char.utf8Size).sum ≤ n
  | [], n => by simp [takeUtf8]
  | c :: rest, n => by
    unfold takeUtf8
    by_cases h : c.utf8Size ≤ n
    · simp only [h, if_true, List.map_cons, List.sum_cons]
      have ih := takeUtf8_le rest (n - c.utf8Size)
      omega
    · simp [h]

/-- Shared helper: the greedy UTF-8 prefix is a prefix (no multi-byte
character is ever split). -/
theorem takeUtf8_prefix : ∀ (cs : List Char) (n : Nat),
    ∃ rest, cs = takeUtf8 cs n ++ rest
  | [], n => ⟨[], rfl⟩
  | c :: rest, n => by
    unfold takeUtf8
    by_cases h : c.utf8Size ≤ n
    · obtain ⟨r, hr⟩ := takeUtf8_prefix rest (n - c.utf8Size)
      exact ⟨r, by simp [h, ← hr]⟩
    · exact ⟨c :: rest, by simp [h]⟩

/-- Shared helper: the chunk-acceptance loop keeps a faithful running byte
total, pairs every chunk with its own byte length, and never exceeds the
budget when started within it. -/
theorem takeChunks_spec (fmt : ℚ → String) (budget : Nat) :
    ∀ (entries : List RankingEntry) (used : Nat),
      (takeChunks fmt budget entries used).2.1 =
          used + (((takeChunks fmt budget entries used).1.map Prod.snd).sum) ∧
        (∀ p ∈ (takeChunks fmt budget entries used).1, p.2 = byteLen p.1) ∧
        (used ≤ budget → (takeChunks fmt budget entries used).2.1 ≤ budget)
  | [], used => by simp [takeChunks]
  | e :: rest, used => by
    unfold takeChunks
    by_cases h : budget < used + byteLen (render_entry_chunk fmt e)
    · simp only [h, if_true]
      exact ⟨by simp, by simp, fun hu => hu⟩
    · simp only [h, if_false]
      have ih := takeChunks_spec fmt budget rest
        (used + byteLen (render_entry_chunk fmt e))
      refine ⟨?_, ?_, ?_⟩
      · simp only [List.map_cons, List.sum_cons]
        omega
      · intro p hp
        rcases List.mem_cons.mp hp with hp | hp
        · simp [hp]
        · exact ih.2.1 p hp
      · intro _
        exact ih.2.2 (Nat.not_lt.mp h)

/-- Shared helper: the tail-shrinking loop keeps the running total equal to
the byte sum of the remaining chunks, only ever keeps chunks it was given,
and stops only once the list is empty or the note fits. -/
theorem shrinkChunks_spec (budget total : Nat) :
    ∀ (chunks : List (String × Nat)) (used : Nat),
      used = ((chunks.map Prod.snd).sum) →
      (shrinkChunks budget total chunks used).2 =
          (((shrinkChunks budget total chunks used).1.map Prod.snd).sum) ∧
        (∀ p ∈ (shrinkChunks budget total chunks used).1, p ∈ chunks) ∧
        ((shrinkChunks budget total chunks used).1 = [] ∨
          (shrinkChunks budget total chunks used).2 +
              byteLen
                (noteFor (shrinkChunks budget total chunks used).1.length total
                  budget) ≤ budget) := by
  have H : ∀ (fuel : Nat) (chunks : List (String × Nat)) (used : Nat),
      chunks.length ≤ fuel → used = ((chunks.map Prod.snd).sum) →
      (shrinkChunksFuel budget total fuel chunks used).2 =
          (((shrinkChunksFuel budget total fuel chunks used).1.map Prod.snd).sum) ∧
        (∀ p ∈ (shrinkChunksFuel budget total fuel chunks used).1, p ∈ chunks) ∧
        ((shrinkChunksFuel budget total fuel chunks used).1 = [] ∨
          (shrinkChunksFuel budget total fuel chunks used).2 +
              byteLen
                (noteFor (shrinkChunksFuel budget total fuel chunks used).1.length
                  total budget) ≤ budget) := by
    intro fuel
    induction fuel with
    | zero =>
      intro chunks used hlen hused
      have hnil : chunks = [] := List.eq_nil_of_length_eq_zero (Nat.le_zero.mp hlen)
      subst hnil
      exact ⟨hused, fun p hp => hp, Or.inl rfl⟩
    | succ n ih =>
      intro chunks used hlen hused
      simp only [shrinkChunksFuel]
      by_cases h : chunks ≠ [] ∧ budget < used + byteLen (noteFor chunks.length total budget)
      · rw [if_pos h]
        have hlast := List.dropLast_concat_getLast h.1
        have hsum : (chunks.map Prod.snd).sum =
            ((chunks.dropLast.map Prod.snd).sum) + (chunks.getLast h.1).2 := by
          conv_lhs => rw [← hlast]
          simp
        have hgetD : chunks.getLastD ("", 0) = chunks.getLast h.1 := by
          rw [List.getLastD_eq_getLast?, List.getLast?_eq_getLast _ h.1]
          rfl
        have hproj : (chunks.getLastD ("", 0)).2 = (chunks.getLast h.1).2 :=
          congrArg Prod.snd hgetD
        have hused' : used - (chunks.getLastD ("", 0)).2 =
            ((chunks.dropLast.map Prod.snd).sum) := by
          omega
        have hlen' : chunks.dropLast.length ≤ n := by
          have hpos : 0 < chunks.length := List.length_pos.mpr h.1
          simp only [List.length_dropLast]
          omega
        have hsub : chunks.dropLast.Sublist chunks := List.dropLast_sublist chunks
        have := ih chunks.dropLast (used - (chunks.getLastD ("", 0)).2) hlen' hused'
        exact ⟨this.1, fun p hp => hsub.mem (this.2.1 p hp), this.2.2⟩
      · rw [if_neg h]
        rcases Decidable.not_and_iff_or_not.mp h with h1 | h2
        · have : chunks = [] := not_not.mp h1
          exact ⟨hused, fun p hp => hp, Or.inl this⟩
        · refine ⟨hused, fun p hp => hp, Or.inr ?_⟩
          show used + byteLen (noteFor chunks.length total budget) ≤ budget
          exact Nat.not_lt.mp h2
  intro chunks used hused
  exact H chunks.length chunks used le_rfl hused

/-- Shared helper: the byte length of joined chunks is the sum of their
recorded byte counts. -/
theorem byteLen_joinChunks :
    ∀ (chunks : List (String × Nat)), (∀ p ∈ chunks, p.2 = byteLen p.1) →
      byteLen (joinChunks chunks) = ((chunks.map Prod.snd).sum)
  | [], _ => rfl
  | p :: rest, h => by
    have ih := byteLen_joinChunks rest (fun q hq => h q (List.mem_cons_of_mem p hq))
    have hp := h p (List.mem_cons_self p rest)
    simp only [joinChunks, byteLen, List.map_cons, List.flatten_cons,
      List.map_append, List.sum_append, List.sum_cons] at *
    omega

/-- C2: for every ranking list, every requested byte limit, and every score
formatter, the rendered text's UTF-8 encoding never exceeds the effective
byte budget (the limit, floored at the renderer's 256-byte minimum):
entries are accepted in rank order until one would overflow, accepted tail
entries are dropped until the truncation note fits, and when even the bare
note cannot fit it is truncated at a character boundary — `truncate_utf8`
always yields a prefix of the note's character sequence (never splitting a
multi-byte unit) whose encoding fits the budget. -/
theorem render_text_within_budget (fmt : ℚ → String)
    (ranking : List RankingEntry) (max_text_bytes : Nat) :
    byteLen (render_text fmt ranking max_text_bytes) ≤ max 256 max_text_bytes ∧
      ∀ (s : String) (n : Nat),
        byteLen (truncate_utf8 s n) ≤ n ∧
          ∃ rest, s.data = (truncate_utf8 s n).data ++ rest := by
  constructor
  · simp only [render_text]
    by_cases hr : ranking.isEmpty
    · rw [if_pos hr]
      simp [byteLen]
    · rw [if_neg hr]
      have spec := takeChunks_spec fmt (max 256 max_text_bytes) ranking 0
      have hsum0 : (takeChunks fmt (max 256 max_text_bytes) ranking 0).2.1 =
          (((takeChunks fmt (max 256 max_text_bytes) ranking 0).1.map Prod.snd).sum) := by
        have := spec.1
        omega
      cases htr : (takeChunks fmt (max 256 max_text_bytes) ranking 0).2.2 with
      | false =>
        simp only [Bool.false_eq_true, if_false]
        rw [byteLen_joinChunks _ spec.2.1, ← hsum0]
        exact spec.2.2 (Nat.zero_le _)
      | true =>
        simp only [if_true]
        have sspec := shrinkChunks_spec (max 256 max_text_bytes) ranking.length
          (takeChunks fmt (max 256 max_text_bytes) ranking 0).1
          (takeChunks fmt (max 256 max_text_bytes) ranking 0).2.1 hsum0
        by_cases hfit :
            (shrinkChunks (max 256 max_text_bytes) ranking.length
                  (takeChunks fmt (max 256 max_text_bytes) ranking 0).1
                  (takeChunks fmt (max 256 max_text_bytes) ranking 0).2.1).2 +
                byteLen
                  (noteFor
                    (shrinkChunks (max 256 max_text_bytes) ranking.length
                        (takeChunks fmt (max 256 max_text_bytes) ranking 0).1
                        (takeChunks fmt (max 256 max_text_bytes) ranking
                            0).2.1).1.length
                    ranking.length (max 256 max_text_bytes)) ≤
              max 256 max_text_bytes
        · rw [if_pos hfit]
          rw [byteLen_joinChunks]
          · simp only [List.map_append, List.sum_append, List.map_cons,
              List.sum_cons, List.map_nil, List.sum_nil]
            rw [← sspec.1]
            omega
          · intro p hp
            rcases List.mem_append.mp hp with hp | hp
            · exact spec.2.1 p (sspec.2.1 p hp)
            · simp only [List.mem_singleton] at hp
              simp [hp]
        · rw [if_neg hfit]
          simp only [truncate_utf8, byteLen_mk]
          exact takeUtf8_le _ _
  · intro s n
    exact ⟨takeUtf8_le s.data n, takeUtf8_prefix s.data n⟩

/-- Shared helper: summing a function over the sorted listing of a finite
set is the set sum. -/
theorem sortedList_map_sum (s : Finset String) (f : String → ℚ) :
    ((sortedList s).map f).sum = ∑ t ∈ s, f t := by
  rw [← Finset.sum_to_list]
  exact (List.Perm.map f (Finset.sort_perm_toList _ s)).sum_eq

/-- Shared helper: the sorted listing has the set's cardinality. -/
theorem sortedList_length (s : Finset String) :
    (sortedList s).length = s.card :=
  Finset.length_sort _

/-- Shared helper: the sorted listing is empty iff the set is. -/
theorem sortedList_eq_nil (s : Finset String) :
    sortedList s = [] ↔ s = ∅ := by
  constructor
  · intro h
    have := sortedList_length s
    rw [h] at this
    exact Finset.card_eq_zero.mp this.symm
  · intro h
    rw [h]
    exact Finset.sort_empty _

/-- Shared helper: inversion of the per-candidate scoring step — a match
determines its entry's overlap sets, semantic score, gate passage,
combined-score formula and threshold filter. -/
theorem scoreEntry_eq_some {ctx : QueryCtx} {e : GraveyardEntry}
    {m : GraveyardMatch} (h : scoreEntry ctx e = some m) :
    m.entry_id = e.id ∧
      m.keyword_overlap = sortedList (ctx.query_keywords ∩ entryKeywordSet e) ∧
      m.file_overlap =
        sortedList (ctx.query_files ∩ (e.files.map norm_path).toFinset) ∧
      m.semantic_score =
        token_jaccard ctx.query_token_set
          (tokenize (e.summary ++ " " ++ e.reason)).toFinset ∧
      ¬(m.keyword_overlap.length < ctx.cfg.min_keyword_overlap ∧
          m.file_overlap = [] ∧
          m.semantic_score < ctx.cfg.similarity_threshold) ∧
      m.score =
        (∑ t ∈ ctx.query_keywords ∩ entryKeywordSet e,
              queryIdf ctx.lg ctx.idf_source t) /
              queryWeight ctx * (45 / 100) +
          (if ctx.query_files ≠ ∅ then
              ((sortedList (ctx.query_files ∩ (e.files.map norm_path).toFinset)).length : ℚ) /
                (max 1 ctx.query_files.card : ℚ)
            else 0) * (25 / 100) +
          m.semantic_score * (30 / 100) ∧
      ctx.cfg.similarity_threshold ≤ m.score := by
  simp only [scoreEntry] at h
  by_cases hqf : ctx.query_files ≠ ∅
  · simp only [if_pos hqf] at h ⊢
    split_ifs at h with hgate hth
    have hm := Option.some.inj h
    subst hm
    exact ⟨rfl, rfl, rfl, rfl, hgate, rfl, not_lt.mp hth⟩
  · simp only [if_neg hqf] at h ⊢
    split_ifs at h with hgate hth
    have hm := Option.some.inj h
    subst hm
    exact ⟨rfl, rfl, rfl, rfl, hgate, rfl, not_lt.mp hth⟩

/-- C4: every match returned by `find_similar` passed the gate (keyword
overlap at least the configured minimum, or non-empty file overlap, or
semantic score at least the threshold); its combined score is exactly
0.45 × (overlapping-keyword IDF mass ÷ total query IDF mass) + 0.25 × (file
overlap ÷ max(1, query-file count), 0 without query files) + 0.30 ×
semantic score and is at least the threshold; and the returned list is
sorted by (score desc, record id desc) and no longer than the effective
max-matches cap. -/
theorem find_similar_match_contract (cfg : GraveyardConfig) (st : StoreModel)
    (lg : ℚ → ℚ) (summary : String) (files : List String) (mm : Option Nat) :
    (∀ m ∈ find_similar cfg st lg summary files mm,
        (cfg.min_keyword_overlap ≤ m.keyword_overlap.length ∨
            m.file_overlap ≠ [] ∨
            cfg.similarity_threshold ≤ m.semantic_score) ∧
          m.score =
            ((m.keyword_overlap.map
                    (queryIdf lg (queryCtx cfg st lg summary files).idf_source)).sum /
                  queryWeight (queryCtx cfg st lg summary files)) * (45 / 100) +
              (if (queryCtx cfg st lg summary files).query_files ≠ ∅ then
                  (m.file_overlap.length : ℚ) /
                    (max 1 (queryCtx cfg st lg summary files).query_files.card : ℚ)
                else 0) * (25 / 100) +
              m.semantic_score * (30 / 100) ∧
          cfg.similarity_threshold ≤ m.score) ∧
      List.Pairwise matchRel (find_similar cfg st lg summary files mm) ∧
      (find_similar cfg st lg summary files mm).length ≤ effectiveCap cfg mm := by
  refine ⟨?_, ?_, ?_⟩
  · intro m hm
    simp only [find_similar] at hm
    split_ifs at hm with h1 h2
    · exact absurd hm (List.not_mem_nil m)
    rotate_left
    · exact absurd hm (List.not_mem_nil m)
    · have hm' : m ∈ List.insertionSort matchRel
          ((load_candidate_entries st (tokenize summary)).filterMap
            (scoreEntry (queryCtx cfg st lg summary files))) :=
        List.mem_of_mem_take hm
      have hm'' := (List.perm_insertionSort matchRel _).mem_iff.mp hm'
      obtain ⟨e, he, hse⟩ := List.mem_filterMap.mp hm''
      obtain ⟨hid, hkw, hfo, hsem, hg, hf, hth⟩ := scoreEntry_eq_some hse
      refine ⟨?_, ?_, hth⟩
      · rcases Decidable.not_and_iff_or_not.mp hg with h | h
        · exact Or.inl (not_lt.mp h)
        · rcases Decidable.not_and_iff_or_not.mp h with h' | h'
          · exact Or.inr (Or.inl h')
          · exact Or.inr (Or.inr (not_lt.mp h'))
      · rw [hkw, hfo, sortedList_map_sum]
        exact hf
  · simp only [find_similar]
    split_ifs
    · exact List.Pairwise.nil
    · exact List.Pairwise.sublist (List.take_sublist _ _)
        (List.sorted_insertionSort matchRel _)
    · exact List.Pairwise.nil
  · simp only [find_similar]
    split_ifs
    · exact Nat.zero_le _
    · rw [List.length_take]
      exact inf_le_left
    · exact Nat.zero_le _

/-- Shared helper: with a logarithm that is nonnegative at arguments ≥ 1
(as `math.log` is), every query IDF weight is at least 1: the document
frequency never exceeds the corpus size, so the log argument is ≥ 1. -/
theorem one_le_queryIdf (lg : ℚ → ℚ) (src : List GraveyardEntry) (t : String)
    (hlg : ∀ q : ℚ, 1 ≤ q → 0 ≤ lg q) : 1 ≤ queryIdf lg src t := by
  unfold queryIdf
  have hdf : docFreq src t ≤ src.length := List.length_filter_le _ _
  have harg : (1 : ℚ) ≤ (src.length + 1) / (docFreq src t + 1) := by
    rw [one_le_div (by positivity)]
    have : (docFreq src t : ℚ) ≤ (src.length : ℚ) := by exact_mod_cast hdf
    linarith
  have := hlg _ harg
  linarith

/-- Shared helper: Jaccard similarity lies in [0, 1]. -/
theorem token_jaccard_bounds (l r : Finset String) :
    0 ≤ token_jaccard l r ∧ token_jaccard l r ≤ 1 := by
  simp only [token_jaccard]
  split_ifs with h1 h2
  · exact ⟨le_refl 0, by norm_num⟩
  · exact ⟨le_refl 0, by norm_num⟩
  · have hsub : l ∩ r ⊆ l ∪ r := (Finset.inter_subset_left).trans
      Finset.subset_union_left
    have hcard : (l ∩ r).card ≤ (l ∪ r).card := Finset.card_le_card hsub
    have hpos : 0 < (l ∪ r).card := by
      rcases Finset.eq_empty_or_nonempty (l ∪ r) with he | hne
      · exact absurd he h2
      · exact Finset.card_pos.mpr hne
    constructor
    · positivity
    · rw [div_le_one (by exact_mod_cast hpos)]
      exact_mod_cast hcard

/-- C9: with a logarithm nonnegative above 1, every match returned by
`find_similar` has both its combined score and its semantic score in the
closed interval [0, 1]: the keyword component is a nonnegative subset sum
over the full query IDF mass, the file component is an overlap fraction,
the semantic component is a Jaccard similarity, and the three weights
0.45 + 0.25 + 0.30 sum to 1. -/
theorem find_similar_scores_bounded (cfg : GraveyardConfig) (st : StoreModel)
    (lg : ℚ → ℚ) (summary : String) (files : List String) (mm : Option Nat)
    (hlg : ∀ q : ℚ, 1 ≤ q → 0 ≤ lg q) :
    ∀ m ∈ find_similar cfg st lg summary files mm,
      0 ≤ m.score ∧ m.score ≤ 1 ∧
        0 ≤ m.semantic_score ∧ m.semantic_score ≤ 1 := by
  intro m hm
  simp only [find_similar] at hm
  split_ifs at hm with h1 h2
  · exact absurd hm (List.not_mem_nil m)
  rotate_left
  · exact absurd hm (List.not_mem_nil m)
  have hm' : m ∈ List.insertionSort matchRel
      ((load_candidate_entries st (tokenize summary)).filterMap
        (scoreEntry (queryCtx cfg st lg summary files))) :=
    List.mem_of_mem_take hm
  have hm'' := (List.perm_insertionSort matchRel _).mem_iff.mp hm'
  obtain ⟨e, he, hse⟩ := List.mem_filterMap.mp hm''
  obtain ⟨hid, hkw, hfo, hsem, hg, hf, hth⟩ := scoreEntry_eq_some hse
  have hjac := token_jaccard_bounds
    (queryCtx cfg st lg summary files).query_token_set
    (tokenize (e.summary ++ " " ++ e.reason)).toFinset
  have hsem0 : 0 ≤ m.semantic_score := hsem ▸ hjac.1
  have hsem1 : m.semantic_score ≤ 1 := hsem ▸ hjac.2
  refine ⟨?_, ?_, hsem0, hsem1⟩ <;>
  · have hidf : ∀ t ∈ (queryCtx cfg st lg summary files).query_keywords,
        (0 : ℚ) ≤ queryIdf lg (queryCtx cfg st lg summary files).idf_source t :=
      fun t _ => le_trans (by norm_num)
        (one_le_queryIdf lg _ t hlg)
    have hsub : (queryCtx cfg st lg summary files).query_keywords ∩
        entryKeywordSet e ⊆ (queryCtx cfg st lg summary files).query_keywords :=
      Finset.inter_subset_left
    have hnum0 : (0 : ℚ) ≤
        ∑ t ∈ (queryCtx cfg st lg summary files).query_keywords ∩
            entryKeywordSet e,
          queryIdf lg (queryCtx cfg st lg summary files).idf_source t :=
      Finset.sum_nonneg fun t ht => hidf t (hsub ht)
    have hnumle : (∑ t ∈ (queryCtx cfg st lg summary files).query_keywords ∩
            entryKeywordSet e,
          queryIdf lg (queryCtx cfg st lg summary files).idf_source t) ≤
        ∑ t ∈ (queryCtx cfg st lg summary files).query_keywords,
          queryIdf lg (queryCtx cfg st lg summary files).idf_source t :=
      Finset.sum_le_sum_of_subset_of_nonneg hsub fun t ht _ => hidf t ht
    have hkwb : (0 : ℚ) ≤
          (∑ t ∈ (queryCtx cfg st lg summary files).query_keywords ∩
              entryKeywordSet e,
            queryIdf lg (queryCtx cfg st lg summary files).idf_source t) /
            queryWeight (queryCtx cfg st lg summary files) ∧
        (∑ t ∈ (queryCtx cfg st lg summary files).query_keywords ∩
              entryKeywordSet e,
            queryIdf lg (queryCtx cfg st lg summary files).idf_source t) /
            queryWeight (queryCtx cfg st lg summary files) ≤ 1 := by
      simp only [queryWeight]
      have hctxlg : (queryCtx cfg st lg summary files).lg = lg := rfl
      rw [hctxlg]
      split_ifs with hS
      · rw [hS] at hnumle
        have : (∑ t ∈ (queryCtx cfg st lg summary files).query_keywords ∩
              entryKeywordSet e,
            queryIdf lg (queryCtx cfg st lg summary files).idf_source t) = 0 :=
          le_antisymm hnumle hnum0
        rw [this]
        norm_num
      · have hS0 : (0 : ℚ) ≤
            ∑ t ∈ (queryCtx cfg st lg summary files).query_keywords,
              queryIdf lg (queryCtx cfg st lg summary files).idf_source t :=
          Finset.sum_nonneg fun t ht => hidf t ht
        have hSpos : (0 : ℚ) <
            ∑ t ∈ (queryCtx cfg st lg summary files).query_keywords,
              queryIdf lg (queryCtx cfg st lg summary files).idf_source t :=
          lt_of_le_of_ne hS0 (Ne.symm hS)
        exact ⟨div_nonneg hnum0 hS0, (div_le_one hSpos).mpr hnumle⟩
    have hfb : (0 : ℚ) ≤
          (if (queryCtx cfg st lg summary files).query_files ≠ ∅ then
              ((sortedList ((queryCtx cfg st lg summary files).query_files ∩
                      (e.files.map norm_path).toFinset)).length : ℚ) /
                (max 1 (queryCtx cfg st lg summary files).query_files.card : ℚ)
            else 0) ∧
        (if (queryCtx cfg st lg summary files).query_files ≠ ∅ then
            ((sortedList ((queryCtx cfg st lg summary files).query_files ∩
                    (e.files.map norm_path).toFinset)).length : ℚ) /
              (max 1 (queryCtx cfg st lg summary files).query_files.card : ℚ)
          else 0) ≤ 1 := by
      split_ifs with hqf
      · have hlen : ((sortedList ((queryCtx cfg st lg summary files).query_files ∩
              (e.files.map norm_path).toFinset)).length : ℚ) =
            (((queryCtx cfg st lg summary files).query_files ∩
                (e.files.map norm_path).toFinset).card : ℚ) := by
          have hlenN := sortedList_length
            ((queryCtx cfg st lg summary files).query_files ∩
              (e.files.map norm_path).toFinset)
          exact_mod_cast hlenN
        have hcard : (((queryCtx cfg st lg summary files).query_files ∩
              (e.files.map norm_path).toFinset).card : ℚ) ≤
            ((queryCtx cfg st lg summary files).query_files.card : ℚ) := by
          exact_mod_cast Finset.card_le_card Finset.inter_subset_left
        have hmax : ((queryCtx cfg st lg summary files).query_files.card : ℚ) ≤
            (max 1 (queryCtx cfg st lg summary files).query_files.card : ℚ) := by
          have : ((queryCtx cfg st lg summary files).query_files.card : ℚ) ≤
              max (1 : ℚ) ((queryCtx cfg st lg summary files).query_files.card : ℚ) :=
            le_max_right _ _
          exact_mod_cast this
        have hmaxpos : (0 : ℚ) <
            (max 1 (queryCtx cfg st lg summary files).query_files.card : ℚ) :=
          lt_of_lt_of_le one_pos (le_max_left _ _)
        constructor
        · exact div_nonneg (by positivity) (le_of_lt hmaxpos)
        · rw [div_le_one hmaxpos, hlen]
          exact le_trans hcard hmax
      · norm_num
    have hclg : (queryCtx cfg st lg summary files).lg = lg := rfl
    rw [hclg] at hf
    rw [hf]
    linarith [hkwb.1, hkwb.2, hfb.1, hfb.2, hjac.1, hjac.2]

/-- C9 witness: the hypothesis on the logarithm holds for the constant-zero
logarithm, under which every returned match is bounded. -/
theorem find_similar_scores_bounded_witness :
    (∀ q : ℚ, 1 ≤ q → 0 ≤ (fun _ : ℚ => (0 : ℚ)) q) ∧
      ∀ m ∈ find_similar {} { window := [], fts := fun _ => none }
          (fun _ : ℚ => (0 : ℚ)) "cache timeout" [] none,
        0 ≤ m.score ∧ m.score ≤ 1 ∧
          0 ≤ m.semantic_score ∧ m.semantic_score ≤ 1 :=
  ⟨fun _ _ => le_refl 0,
    find_similar_scores_bounded {} { window := [], fts := fun _ => none }
      (fun _ => 0) "cache timeout" [] none (fun _ _ => le_refl 0)⟩

/-- Shared helper: with no focus files there is no focus bonus. -/
theorem focusBonus_nil (p : String) : focusBonus [] p = 0 := by
  simp only [focusBonus, List.map_nil]
  rw [if_neg (List.not_mem_nil p), if_neg (List.not_mem_nil (fileName p))]

/-- Shared helper: the ranking score splits into the focus-independent
signal total (the score with an empty focus list) plus the focus bonus. -/
theorem rank_score_split (focus : List String) (g : String → ℚ)
    (a : FileAnalysis) :
    rank_score focus g a =
      rank_score [] g a + focusBonus focus (pathRepl a.path) := by
  simp only [rank_score, focusBonus_nil]
  ring

/-- Shared helper: an exact focus match earns the 25-point bonus. -/
theorem focusBonus_of_mem {focus : List String} {p : String}
    (h : p ∈ focus.map pathRepl) : focusBonus focus p = 25 := by
  simp [focusBonus, h]

/-- Shared helper: without an exact focus match the bonus is the basename
bonus 4 or nothing. -/
theorem focusBonus_of_not_mem {focus : List String} {p : String}
    (h : p ∉ focus.map pathRepl) :
    0 ≤ focusBonus focus p ∧ focusBonus focus p ≤ 4 := by
  simp only [focusBonus, if_neg h]
  split_ifs
  · norm_num
  · norm_num

/-- Shared helper: in a list sorted by a relation, an element strictly
above another (related one way, unrelated the other) sits at a strictly
smaller index. -/
theorem pairwise_index_lt {α : Type} {r : α → α → Prop} {l : List α}
    (hp : l.Pairwise r) {i j : Nat} {x y : α} (hi : l.get? i = some x)
    (hj : l.get? j = some y) (hxy : r x y) (hyx : ¬r y x) : i < j := by
  by_contra hij
  push_neg at hij
  rcases Nat.eq_or_lt_of_le hij with heq | hlt
  · rw [← heq] at hi
    rw [hi] at hj
    cases Option.some.inj hj
    exact hyx hxy
  · obtain ⟨hjl, hjv⟩ := List.get?_eq_some.mp hj
    obtain ⟨hil, hiv⟩ := List.get?_eq_some.mp hi
    have := List.pairwise_iff_get.mp hp ⟨j, hjl⟩ ⟨i, hil⟩ hlt
    rw [hjv, hiv] at this
    exact hyx this

/-- C5 (amended): among analyses whose focus-independent ranking signals
contribute identically, a file exactly matching a caller-nominated focus
path scores strictly higher than a non-focus file and is ranked before it
in the `_rank_files` output — provided the focus file's floored score is
positive.  (When the shared signals drive both scores to the zero floor the
two files tie and the lexicographic path tiebreak decides the order; the
counterexample shows the ordering can then invert.) -/
theorem rank_focus_dominates (analyses : List FileAnalysis)
    (focus : List String) (g : String → ℚ) (max_files : Nat)
    (a b : FileAnalysis) (ha : a ∈ analyses) (hb : b ∈ analyses)
    (hbase : rank_score [] g a = rank_score [] g b)
    (hfa : pathRepl a.path ∈ focus.map pathRepl)
    (hfb : pathRepl b.path ∉ focus.map pathRepl)
    (hpos : 0 < (rankEntryOf focus g a).score) :
    (rankEntryOf focus g b).score < (rankEntryOf focus g a).score ∧
      ∀ j, (rank_files analyses focus max_files g).get? j =
          some (rankEntryOf focus g b) →
        ∃ i, i < j ∧ (rank_files analyses focus max_files g).get? i =
          some (rankEntryOf focus g a) := by
  have hsa : (rankEntryOf focus g a).score =
      max 0 (rank_score [] g a + 25) := by
    show max 0 (rank_score focus g a) = _
    rw [rank_score_split, focusBonus_of_mem hfa]
  have hposa : 0 < rank_score [] g a + 25 := by
    rw [hsa] at hpos
    rcases lt_max_iff.mp hpos with h | h
    · exact absurd h (lt_irrefl 0)
    · exact h
  have hfbb := focusBonus_of_not_mem hfb
  have hsb : (rankEntryOf focus g b).score =
      max 0 (rank_score [] g b + focusBonus focus (pathRepl b.path)) := by
    show max 0 (rank_score focus g b) = _
    rw [rank_score_split]
  have hscore : (rankEntryOf focus g b).score <
      (rankEntryOf focus g a).score := by
    rw [hsa, hsb, ← hbase, max_eq_right (le_of_lt hposa)]
    rcases le_or_lt (rank_score [] g a +
        focusBonus focus (pathRepl b.path)) 0 with hle | hlt
    · rw [max_eq_left hle]
      exact hposa
    · rw [max_eq_right (le_of_lt hlt)]
      have := hfbb.2
      linarith
  refine ⟨hscore, ?_⟩
  intro j hj
  have hsorted : List.Pairwise entryRel
      (List.insertionSort entryRel (analyses.map (rankEntryOf focus g))) :=
    List.sorted_insertionSort entryRel _
  obtain ⟨hjlen, _⟩ := List.get?_eq_some.mp hj
  have hjmax : j < max_files := by
    have := hjlen
    rw [rank_files, List.length_take] at this
    omega
  have hjL : (List.insertionSort entryRel
      (analyses.map (rankEntryOf focus g))).get? j =
      some (rankEntryOf focus g b) := by
    rw [rank_files] at hj
    rw [← List.get?_take hjmax]
    exact hj
  have haL : rankEntryOf focus g a ∈ List.insertionSort entryRel
      (analyses.map (rankEntryOf focus g)) :=
    (List.perm_insertionSort entryRel _).mem_iff.mpr
      (List.mem_map.mpr ⟨a, ha, rfl⟩)
  obtain ⟨i, hiL⟩ := List.mem_iff_get?.mp haL
  have hr : entryRel (rankEntryOf focus g a) (rankEntryOf focus g b) :=
    Or.inl hscore
  have hnr : ¬entryRel (rankEntryOf focus g b) (rankEntryOf focus g a) := by
    intro h
    rcases h with h | ⟨h, _⟩
    · exact absurd (h.trans hscore) (lt_irrefl _)
    · rw [h] at hscore
      exact absurd hscore (lt_irrefl _)
  have hij : i < j := pairwise_index_lt hsorted hiL hjL hr hnr
  refine ⟨i, hij, ?_⟩
  rw [rank_files, List.get?_take (lt_trans hij hjmax)]
  exact hiL

set_option maxRecDepth 100000 in
/-- C5 (counterexample): two analyses identical in every ranking signal
contribution except the basename (stems "z" and "a", neither carrying any
stem boost), nested under 33 `tests` directories whose penalties drive both
scores to the zero floor.  The focus file ties the non-focus file at score
0 instead of scoring strictly higher, and the lexicographic path tiebreak
ranks the non-focus file first. -/
theorem rank_focus_counterexample :
    (rankEntryOf ["tests/tests/tests/tests/tests/tests/tests/tests/tests/tests/tests/tests/tests/tests/tests/tests/tests/tests/tests/tests/tests/tests/tests/tests/tests/tests/tests/tests/tests/tests/tests/tests/tests/z.py"]
          (fun _ => 0)
          { path := "tests/tests/tests/tests/tests/tests/tests/tests/tests/tests/tests/tests/tests/tests/tests/tests/tests/tests/tests/tests/tests/tests/tests/tests/tests/tests/tests/tests/tests/tests/tests/tests/tests/z.py",
             byte_size := 0, line_count := 0, symbols := [], symbol_count := 0,
             imports := [] }).score =
        (rankEntryOf ["tests/tests/tests/tests/tests/tests/tests/tests/tests/tests/tests/tests/tests/tests/tests/tests/tests/tests/tests/tests/tests/tests/tests/tests/tests/tests/tests/tests/tests/tests/tests/tests/tests/z.py"]
          (fun _ => 0)
          { path := "tests/tests/tests/tests/tests/tests/tests/tests/tests/tests/tests/tests/tests/tests/tests/tests/tests/tests/tests/tests/tests/tests/tests/tests/tests/tests/tests/tests/tests/tests/tests/tests/tests/a.py",
             byte_size := 0, line_count := 0, symbols := [], symbol_count := 0,
             imports := [] }).score ∧
      rank_files
          [{ path := "tests/tests/tests/tests/tests/tests/tests/tests/tests/tests/tests/tests/tests/tests/tests/tests/tests/tests/tests/tests/tests/tests/tests/tests/tests/tests/tests/tests/tests/tests/tests/tests/tests/z.py",
              byte_size := 0, line_count := 0, symbols := [], symbol_count := 0,
              imports := [] },
           { path := "tests/tests/tests/tests/tests/tests/tests/tests/tests/tests/tests/tests/tests/tests/tests/tests/tests/tests/tests/tests/tests/tests/tests/tests/tests/tests/tests/tests/tests/tests/tests/tests/tests/a.py",
              byte_size := 0, line_count := 0, symbols := [], symbol_count := 0,
              imports := [] }]
          ["tests/tests/tests/tests/tests/tests/tests/tests/tests/tests/tests/tests/tests/tests/tests/tests/tests/tests/tests/tests/tests/tests/tests/tests/tests/tests/tests/tests/tests/tests/tests/tests/tests/z.py"] 10 (fun _ => 0) =
        [{ path := "tests/tests/tests/tests/tests/tests/tests/tests/tests/tests/tests/tests/tests/tests/tests/tests/tests/tests/tests/tests/tests/tests/tests/tests/tests/tests/tests/tests/tests/tests/tests/tests/tests/a.py", score := 0, symbols := [] },
         { path := "tests/tests/tests/tests/tests/tests/tests/tests/tests/tests/tests/tests/tests/tests/tests/tests/tests/tests/tests/tests/tests/tests/tests/tests/tests/tests/tests/tests/tests/tests/tests/tests/tests/z.py", score := 0, symbols := [] }] := by
  have hnbz : ∀ nb ∈ rank_name_boosts, ¬(("z" : String) = nb.1 ∨
      startsWithL "z".data (nb.1.data ++ ['_']) ∨
      endsWithL "z".data ('_' :: nb.1.data)) := by decide
  have hnba : ∀ nb ∈ rank_name_boosts, ¬(("a" : String) = nb.1 ∨
      startsWithL "a".data (nb.1.data ++ ['_']) ∨
      endsWithL "a".data ('_' :: nb.1.data)) := by decide
  have hsnz : sumNameBoosts "z" = 0 := by
    unfold sumNameBoosts
    apply List.sum_eq_zero
    intro x hx
    obtain ⟨nb, hmem, rfl⟩ := List.mem_map.mp hx
    exact if_neg (hnbz nb hmem)
  have hsna : sumNameBoosts "a" = 0 := by
    unfold sumNameBoosts
    apply List.sum_eq_zero
    intro x hx
    obtain ⟨nb, hmem, rfl⟩ := List.mem_map.mp hx
    exact if_neg (hnba nb hmem)
  have hlooktb : lookupQ rank_path_boosts "tests" = 0 := by
    simp [lookupQ,
      (by decide : rank_path_boosts.find? (fun p => p.1 = "tests") = none)]
  have hlooktp : lookupQ rank_path_penalties "tests" = 85 / 100 := by
    simp [lookupQ, rank_path_penalties, List.find?]
  have hdirs : sumDirAdjust (List.replicate 33 "tests") = -(561 / 20) := by
    unfold sumDirAdjust
    rw [List.map_replicate, List.sum_replicate,
      (by decide : lowerStr "tests" = "tests"), hlooktb, hlooktp]
    norm_num [nsmul_eq_mul]
  have hlockz : lookupQ rank_exact_filename_penalties "z.py" = 0 := by
    simp [lookupQ,
      (by decide :
        rank_exact_filename_penalties.find? (fun p => p.1 = "z.py") = none)]
  have hlocka : lookupQ rank_exact_filename_penalties "a.py" = 0 := by
    simp [lookupQ,
      (by decide :
        rank_exact_filename_penalties.find? (fun p => p.1 = "a.py") = none)]
  have hsfb : lookupQ rank_suffix_boosts ".py" = 0 := by
    simp [lookupQ,
      (by decide : rank_suffix_boosts.find? (fun p => p.1 = ".py") = none)]
  have hfz : focusBonus ["tests/tests/tests/tests/tests/tests/tests/tests/tests/tests/tests/tests/tests/tests/tests/tests/tests/tests/tests/tests/tests/tests/tests/tests/tests/tests/tests/tests/tests/tests/tests/tests/tests/z.py"]
      (pathRepl "tests/tests/tests/tests/tests/tests/tests/tests/tests/tests/tests/tests/tests/tests/tests/tests/tests/tests/tests/tests/tests/tests/tests/tests/tests/tests/tests/tests/tests/tests/tests/tests/tests/z.py") = 25 :=
    focusBonus_of_mem (by decide)
  have hfa : focusBonus ["tests/tests/tests/tests/tests/tests/tests/tests/tests/tests/tests/tests/tests/tests/tests/tests/tests/tests/tests/tests/tests/tests/tests/tests/tests/tests/tests/tests/tests/tests/tests/tests/tests/z.py"]
      (pathRepl "tests/tests/tests/tests/tests/tests/tests/tests/tests/tests/tests/tests/tests/tests/tests/tests/tests/tests/tests/tests/tests/tests/tests/tests/tests/tests/tests/tests/tests/tests/tests/tests/tests/a.py") = 0 := by
    simp only [focusBonus]
    rw [if_neg (by decide), if_neg (by decide)]
  have hz : rank_score ["tests/tests/tests/tests/tests/tests/tests/tests/tests/tests/tests/tests/tests/tests/tests/tests/tests/tests/tests/tests/tests/tests/tests/tests/tests/tests/tests/tests/tests/tests/tests/tests/tests/z.py"]
      (fun _ => 0)
      { path := "tests/tests/tests/tests/tests/tests/tests/tests/tests/tests/tests/tests/tests/tests/tests/tests/tests/tests/tests/tests/tests/tests/tests/tests/tests/tests/tests/tests/tests/tests/tests/tests/tests/z.py",
         byte_size := 0, line_count := 0, symbols := [], symbol_count := 0,
         imports := [] } = -(9 / 20) := by
    simp only [rank_score]
    rw [(by decide : lowerStr (splitStemSuffix (fileName (pathRepl
          ("tests/tests/tests/tests/tests/tests/tests/tests/tests/tests/tests/tests/tests/tests/tests/tests/tests/tests/tests/tests/tests/tests/tests/tests/tests/tests/tests/tests/tests/tests/tests/tests/tests/z.py" : String)))).2 = ".py"),
      (by decide : lowerStr (splitStemSuffix (fileName (pathRepl
          ("tests/tests/tests/tests/tests/tests/tests/tests/tests/tests/tests/tests/tests/tests/tests/tests/tests/tests/tests/tests/tests/tests/tests/tests/tests/tests/tests/tests/tests/tests/tests/tests/tests/z.py" : String)))).1 = "z"),
      (by decide : (pathRepl
          ("tests/tests/tests/tests/tests/tests/tests/tests/tests/tests/tests/tests/tests/tests/tests/tests/tests/tests/tests/tests/tests/tests/tests/tests/tests/tests/tests/tests/tests/tests/tests/tests/tests/z.py" : String)).data.count '/' = 33),
      if_pos (by decide : (".py" : String) ∈ code_like_suffixes),
      hsfb, hfz, hsnz,
      (by decide : (pathParts (pathRepl
          ("tests/tests/tests/tests/tests/tests/tests/tests/tests/tests/tests/tests/tests/tests/tests/tests/tests/tests/tests/tests/tests/tests/tests/tests/tests/tests/tests/tests/tests/tests/tests/tests/tests/z.py" : String))).dropLast =
        List.replicate 33 "tests"),
      hdirs,
      (by decide : lowerStr (fileName (pathRepl
          ("tests/tests/tests/tests/tests/tests/tests/tests/tests/tests/tests/tests/tests/tests/tests/tests/tests/tests/tests/tests/tests/tests/tests/tests/tests/tests/tests/tests/tests/tests/tests/tests/tests/z.py" : String))) = "z.py"),
      hlockz,
      if_neg (by decide : ¬(hasSubstr "z".data "generated".data ∨
        hasSubstr "z".data "snapshot".data))]
    norm_num [min_def, max_def]
  have ha : rank_score ["tests/tests/tests/tests/tests/tests/tests/tests/tests/tests/tests/tests/tests/tests/tests/tests/tests/tests/tests/tests/tests/tests/tests/tests/tests/tests/tests/tests/tests/tests/tests/tests/tests/z.py"]
      (fun _ => 0)
      { path := "tests/tests/tests/tests/tests/tests/tests/tests/tests/tests/tests/tests/tests/tests/tests/tests/tests/tests/tests/tests/tests/tests/tests/tests/tests/tests/tests/tests/tests/tests/tests/tests/tests/a.py",
         byte_size := 0, line_count := 0, symbols := [], symbol_count := 0,
         imports := [] } = -(509 / 20) := by
    simp only [rank_score]
    rw [(by decide : lowerStr (splitStemSuffix (fileName (pathRepl
          ("tests/tests/tests/tests/tests/tests/tests/tests/tests/tests/tests/tests/tests/tests/tests/tests/tests/tests/tests/tests/tests/tests/tests/tests/tests/tests/tests/tests/tests/tests/tests/tests/tests/a.py" : String)))).2 = ".py"),
      (by decide : lowerStr (splitStemSuffix (fileName (pathRepl
          ("tests/tests/tests/tests/tests/tests/tests/tests/tests/tests/tests/tests/tests/tests/tests/tests/tests/tests/tests/tests/tests/tests/tests/tests/tests/tests/tests/tests/tests/tests/tests/tests/tests/a.py" : String)))).1 = "a"),
      (by decide : (pathRepl
          ("tests/tests/tests/tests/tests/tests/tests/tests/tests/tests/tests/tests/tests/tests/tests/tests/tests/tests/tests/tests/tests/tests/tests/tests/tests/tests/tests/tests/tests/tests/tests/tests/tests/a.py" : String)).data.count '/' = 33),
      if_pos (by decide : (".py" : String) ∈ code_like_suffixes),
      hsfb, hfa, hsna,
      (by decide : (pathParts (pathRepl
          ("tests/tests/tests/tests/tests/tests/tests/tests/tests/tests/tests/tests/tests/tests/tests/tests/tests/tests/tests/tests/tests/tests/tests/tests/tests/tests/tests/tests/tests/tests/tests/tests/tests/a.py" : String))).dropLast =
        List.replicate 33 "tests"),
      hdirs,
      (by decide : lowerStr (fileName (pathRepl
          ("tests/tests/tests/tests/tests/tests/tests/tests/tests/tests/tests/tests/tests/tests/tests/tests/tests/tests/tests/tests/tests/tests/tests/tests/tests/tests/tests/tests/tests/tests/tests/tests/tests/a.py" : String))) = "a.py"),
      hlocka,
      if_neg (by decide : ¬(hasSubstr "a".data "generated".data ∨
        hasSubstr "a".data "snapshot".data))]
    norm_num [min_def, max_def]
  have hze : rankEntryOf ["tests/tests/tests/tests/tests/tests/tests/tests/tests/tests/tests/tests/tests/tests/tests/tests/tests/tests/tests/tests/tests/tests/tests/tests/tests/tests/tests/tests/tests/tests/tests/tests/tests/z.py"]
      (fun _ => 0)
      { path := "tests/tests/tests/tests/tests/tests/tests/tests/tests/tests/tests/tests/tests/tests/tests/tests/tests/tests/tests/tests/tests/tests/tests/tests/tests/tests/tests/tests/tests/tests/tests/tests/tests/z.py",
         byte_size := 0, line_count := 0, symbols := [], symbol_count := 0,
         imports := [] } =
      { path := "tests/tests/tests/tests/tests/tests/tests/tests/tests/tests/tests/tests/tests/tests/tests/tests/tests/tests/tests/tests/tests/tests/tests/tests/tests/tests/tests/tests/tests/tests/tests/tests/tests/z.py", score := 0, symbols := [] } := by
    simp only [rankEntryOf, hz,
      (by decide : pathRepl ("tests/tests/tests/tests/tests/tests/tests/tests/tests/tests/tests/tests/tests/tests/tests/tests/tests/tests/tests/tests/tests/tests/tests/tests/tests/tests/tests/tests/tests/tests/tests/tests/tests/z.py" : String) =
        "tests/tests/tests/tests/tests/tests/tests/tests/tests/tests/tests/tests/tests/tests/tests/tests/tests/tests/tests/tests/tests/tests/tests/tests/tests/tests/tests/tests/tests/tests/tests/tests/tests/z.py")]
    rw [max_eq_left (by norm_num)]
  have hae : rankEntryOf ["tests/tests/tests/tests/tests/tests/tests/tests/tests/tests/tests/tests/tests/tests/tests/tests/tests/tests/tests/tests/tests/tests/tests/tests/tests/tests/tests/tests/tests/tests/tests/tests/tests/z.py"]
      (fun _ => 0)
      { path := "tests/tests/tests/tests/tests/tests/tests/tests/tests/tests/tests/tests/tests/tests/tests/tests/tests/tests/tests/tests/tests/tests/tests/tests/tests/tests/tests/tests/tests/tests/tests/tests/tests/a.py",
         byte_size := 0, line_count := 0, symbols := [], symbol_count := 0,
         imports := [] } =
      { path := "tests/tests/tests/tests/tests/tests/tests/tests/tests/tests/tests/tests/tests/tests/tests/tests/tests/tests/tests/tests/tests/tests/tests/tests/tests/tests/tests/tests/tests/tests/tests/tests/tests/a.py", score := 0, symbols := [] } := by
    simp only [rankEntryOf, ha,
      (by decide : pathRepl ("tests/tests/tests/tests/tests/tests/tests/tests/tests/tests/tests/tests/tests/tests/tests/tests/tests/tests/tests/tests/tests/tests/tests/tests/tests/tests/tests/tests/tests/tests/tests/tests/tests/a.py" : String) =
        "tests/tests/tests/tests/tests/tests/tests/tests/tests/tests/tests/tests/tests/tests/tests/tests/tests/tests/tests/tests/tests/tests/tests/tests/tests/tests/tests/tests/tests/tests/tests/tests/tests/a.py")]
    rw [max_eq_left (by norm_num)]
  constructor
  · rw [hze, hae]
  · have hnrel : ¬entryRel
        { path := "tests/tests/tests/tests/tests/tests/tests/tests/tests/tests/tests/tests/tests/tests/tests/tests/tests/tests/tests/tests/tests/tests/tests/tests/tests/tests/tests/tests/tests/tests/tests/tests/tests/z.py", score := 0, symbols := [] }
        { path := "tests/tests/tests/tests/tests/tests/tests/tests/tests/tests/tests/tests/tests/tests/tests/tests/tests/tests/tests/tests/tests/tests/tests/tests/tests/tests/tests/tests/tests/tests/tests/tests/tests/a.py", score := 0, symbols := [] } := by
      intro h
      rcases h with h | ⟨_, h2⟩
      · exact absurd h (lt_irrefl 0)
      · revert h2
        show ¬("tests/tests/tests/tests/tests/tests/tests/tests/tests/tests/tests/tests/tests/tests/tests/tests/tests/tests/tests/tests/tests/tests/tests/tests/tests/tests/tests/tests/tests/tests/tests/tests/tests/z.py" : String) ≤
          "tests/tests/tests/tests/tests/tests/tests/tests/tests/tests/tests/tests/tests/tests/tests/tests/tests/tests/tests/tests/tests/tests/tests/tests/tests/tests/tests/tests/tests/tests/tests/tests/tests/a.py"
        rw [String.le_iff_toList_le]
        decide
    rw [rank_files, List.map_cons, List.map_cons, List.map_nil, hze, hae]
    simp only [List.insertionSort, List.orderedInsert]
    rw [if_neg hnrel]
    simp [List.take]

/-- C5 witness: two otherwise-identical single-directory analyses
("x/q.py" focus, "y/q.py" not), whose focus-independent scores agree and
whose focus score is positive, instantiate the amended dominance claim. -/
theorem rank_focus_dominates_witness :
    rank_score [] (fun _ => 0)
        { path := "x/q.py", byte_size := 0, line_count := 0, symbols := [],
          symbol_count := 0, imports := [] } =
      rank_score [] (fun _ => 0)
        { path := "y/q.py", byte_size := 0, line_count := 0, symbols := [],
          symbol_count := 0, imports := [] } ∧
    0 < (rankEntryOf ["x/q.py"] (fun _ => 0)
        { path := "x/q.py", byte_size := 0, line_count := 0, symbols := [],
          symbol_count := 0, imports := [] }).score ∧
    ((rankEntryOf ["x/q.py"] (fun _ => 0)
          { path := "y/q.py", byte_size := 0, line_count := 0, symbols := [],
            symbol_count := 0, imports := [] }).score <
        (rankEntryOf ["x/q.py"] (fun _ => 0)
          { path := "x/q.py", byte_size := 0, line_count := 0, symbols := [],
            symbol_count := 0, imports := [] }).score ∧
      ∀ j, (rank_files
            [{ path := "x/q.py", byte_size := 0, line_count := 0,
               symbols := [], symbol_count := 0, imports := [] },
             { path := "y/q.py", byte_size := 0, line_count := 0,
               symbols := [], symbol_count := 0, imports := [] }]
            ["x/q.py"] 5 (fun _ => 0)).get? j =
          some (rankEntryOf ["x/q.py"] (fun _ => 0)
            { path := "y/q.py", byte_size := 0, line_count := 0,
              symbols := [], symbol_count := 0, imports := [] }) →
        ∃ i, i < j ∧ (rank_files
            [{ path := "x/q.py", byte_size := 0, line_count := 0,
               symbols := [], symbol_count := 0, imports := [] },
             { path := "y/q.py", byte_size := 0, line_count := 0,
               symbols := [], symbol_count := 0, imports := [] }]
            ["x/q.py"] 5 (fun _ => 0)).get? i =
          some (rankEntryOf ["x/q.py"] (fun _ => 0)
            { path := "x/q.py", byte_size := 0, line_count := 0,
              symbols := [], symbol_count := 0, imports := [] })) := by
  have hnbq : ∀ nb ∈ rank_name_boosts, ¬(("q" : String) = nb.1 ∨
      startsWithL "q".data (nb.1.data ++ ['_']) ∨
      endsWithL "q".data ('_' :: nb.1.data)) := by decide
  have hsnq : sumNameBoosts "q" = 0 := by
    unfold sumNameBoosts
    apply List.sum_eq_zero
    intro x hx
    obtain ⟨nb, hmem, rfl⟩ := List.mem_map.mp hx
    exact if_neg (hnbq nb hmem)
  have hsfb : lookupQ rank_suffix_boosts ".py" = 0 := by
    simp [lookupQ,
      (by decide : rank_suffix_boosts.find? (fun p => p.1 = ".py") = none)]
  have hlockq : lookupQ rank_exact_filename_penalties "q.py" = 0 := by
    simp [lookupQ,
      (by decide :
        rank_exact_filename_penalties.find? (fun p => p.1 = "q.py") = none)]
  have hdx : sumDirAdjust ["x"] = 0 := by
    simp [sumDirAdjust, lookupQ, (by decide : lowerStr "x" = "x"),
      (by decide : rank_path_boosts.find? (fun p => p.1 = "x") = none),
      (by decide : rank_path_penalties.find? (fun p => p.1 = "x") = none)]
  have hdy : sumDirAdjust ["y"] = 0 := by
    simp [sumDirAdjust, lookupQ, (by decide : lowerStr "y" = "y"),
      (by decide : rank_path_boosts.find? (fun p => p.1 = "y") = none),
      (by decide : rank_path_penalties.find? (fun p => p.1 = "y") = none)]
  have hxv : rank_score [] (fun _ => 0)
      { path := "x/q.py", byte_size := 0, line_count := 0, symbols := [],
        symbol_count := 0, imports := [] } = 83 / 25 := by
    simp only [rank_score]
    rw [(by decide : lowerStr (splitStemSuffix (fileName (pathRepl
          ("x/q.py" : String)))).2 = ".py"),
      (by decide : lowerStr (splitStemSuffix (fileName (pathRepl
          ("x/q.py" : String)))).1 = "q"),
      (by decide : (pathRepl ("x/q.py" : String)).data.count '/' = 1),
      if_pos (by decide : (".py" : String) ∈ code_like_suffixes),
      hsfb, focusBonus_nil, hsnq,
      (by decide : (pathParts (pathRepl ("x/q.py" : String))).dropLast = ["x"]),
      hdx,
      (by decide : lowerStr (fileName (pathRepl ("x/q.py" : String))) = "q.py"),
      hlockq,
      if_neg (by decide : ¬(hasSubstr "q".data "generated".data ∨
        hasSubstr "q".data "snapshot".data))]
    norm_num [min_def, max_def]
  have hyv : rank_score [] (fun _ => 0)
      { path := "y/q.py", byte_size := 0, line_count := 0, symbols := [],
        symbol_count := 0, imports := [] } = 83 / 25 := by
    simp only [rank_score]
    rw [(by decide : lowerStr (splitStemSuffix (fileName (pathRepl
          ("y/q.py" : String)))).2 = ".py"),
      (by decide : lowerStr (splitStemSuffix (fileName (pathRepl
          ("y/q.py" : String)))).1 = "q"),
      (by decide : (pathRepl ("y/q.py" : String)).data.count '/' = 1),
      if_pos (by decide : (".py" : String) ∈ code_like_suffixes),
      hsfb, focusBonus_nil, hsnq,
      (by decide : (pathParts (pathRepl ("y/q.py" : String))).dropLast = ["y"]),
      hdy,
      (by decide : lowerStr (fileName (pathRepl ("y/q.py" : String))) = "q.py"),
      hlockq,
      if_neg (by decide : ¬(hasSubstr "q".data "generated".data ∨
        hasSubstr "q".data "snapshot".data))]
    norm_num [min_def, max_def]
  have hbase : rank_score [] (fun _ => 0)
      { path := "x/q.py", byte_size := 0, line_count := 0, symbols := [],
        symbol_count := 0, imports := [] } =
      rank_score [] (fun _ => 0)
        { path := "y/q.py", byte_size := 0, line_count := 0, symbols := [],
          symbol_count := 0, imports := [] } := by
    rw [hxv, hyv]
  have hpos : 0 < (rankEntryOf ["x/q.py"] (fun _ => 0)
      { path := "x/q.py", byte_size := 0, line_count := 0, symbols := [],
        symbol_count := 0, imports := [] }).score := by
    show 0 < max 0 (rank_score ["x/q.py"] (fun _ => 0) _)
    rw [rank_score_split, hxv, focusBonus_of_mem (by decide)]
    rw [max_eq_right (by norm_num)]
    norm_num
  exact ⟨hbase, hpos,
    rank_focus_dominates _ ["x/q.py"] (fun _ => 0) 5 _ _
      (by simp) (by simp) hbase (by decide) (by decide) hpos⟩

/-- Shared helper: two sorted lists that are permutations of each other are
equal when the order relation is antisymmetric on the elements involved. -/
theorem sorted_perm_eq {α : Type} {r : α → α → Prop} :
    ∀ {l₁ l₂ : List α}, l₁.Perm l₂ → l₁.Pairwise r → l₂.Pairwise r →
      (∀ x ∈ l₁, ∀ y ∈ l₁, r x y → r y x → x = y) → l₁ = l₂
  | [], l₂, hp, _, _, _ => (hp.nil_eq).symm ▸ rfl
  | a :: t₁, l₂, hp, hs₁, hs₂, hanti => by
    cases l₂ with
    | nil => exact absurd hp.symm (by simp)
    | cons b t₂ =>
      have hab : a = b := by
        by_cases h : a = b
        · exact h
        · have hbl : b ∈ a :: t₁ := hp.mem_iff.mpr (List.mem_cons_self b t₂)
          have hal : a ∈ b :: t₂ := hp.mem_iff.mp (List.mem_cons_self a t₁)
          have hbt : b ∈ t₁ := by
            rcases List.mem_cons.mp hbl with h' | h'
            · exact absurd h'.symm h
            · exact h'
          have hat : a ∈ t₂ := by
            rcases List.mem_cons.mp hal with h' | h'
            · exact absurd h' h
            · exact h'
          have hrab : r a b := (List.pairwise_cons.mp hs₁).1 b hbt
          have hrba : r b a := (List.pairwise_cons.mp hs₂).1 a hat
          exact hanti a (List.mem_cons_self a t₁) b hbl hrab hrba
      subst hab
      have htp : t₁.Perm t₂ := hp.cons_inv
      have := sorted_perm_eq htp (List.pairwise_cons.mp hs₁).2
        (List.pairwise_cons.mp hs₂).2
        (fun x hx y hy hxy hyx =>
          hanti x (List.mem_cons_of_mem a hx) y (List.mem_cons_of_mem a hy)
            hxy hyx)
      rw [this]

/-- Shared helper: a list whose image under `f` has no duplicates admits no
two distinct members with the same image. -/
theorem nodup_map_inj {α β : Type} {f : α → β} :
    ∀ {l : List α}, (l.map f).Nodup →
      ∀ x ∈ l, ∀ y ∈ l, f x = f y → x = y
  | [], _, x, hx, _, _, _ => absurd hx (List.not_mem_nil x)
  | a :: t, hn, x, hx, y, hy, hf => by
    rw [List.map_cons] at hn
    have hna := (List.nodup_cons.mp hn).1
    have hnt := (List.nodup_cons.mp hn).2
    rcases List.mem_cons.mp hx with hx' | hx' <;>
      rcases List.mem_cons.mp hy with hy' | hy'
    · rw [hx', hy']
    · subst hx'
      exact absurd (hf ▸ List.mem_map_of_mem f hy') hna
    · subst hy'
      exact absurd (hf ▸ List.mem_map_of_mem f hx') hna
    · exact nodup_map_inj hnt x hx' y hy' hf

/-- Shared helper: scored match lists inherit distinct record ids from
their candidate rows. -/
theorem scored_ids_nodup (ctx : QueryCtx) {l : List GraveyardEntry}
    (h : (l.map GraveyardEntry.id).Nodup) :
    ((l.filterMap (scoreEntry ctx)).map GraveyardMatch.entry_id).Nodup := by
  have hpl : l.Pairwise (fun a b => a.id ≠ b.id) :=
    (List.pairwise_map.mp h)
  have : (l.filterMap (scoreEntry ctx)).Pairwise
      (fun m n => m.entry_id ≠ n.entry_id) := by
    rw [List.pairwise_filterMap]
    refine hpl.imp_of_mem ?_
    intro a b _ _ hab x hx y hy
    have hxa := (scoreEntry_eq_some (Option.mem_def.mp hx)).1
    have hyb := (scoreEntry_eq_some (Option.mem_def.mp hy)).1
    rw [hxa, hyb]
    exact hab
  exact List.pairwise_map.mpr this

/-- Shared helper: forcing the narrowing capability to report unsupported
makes the retrieval scan the whole window. -/
theorem load_candidate_entries_unsupported (w : List GraveyardEntry)
    (qt : List String) : load_candidate_entries (unsupportedStore w) qt = w := by
  simp [load_candidate_entries, unsupportedStore]

/-- C7 (amended): forcing the indexed-narrowing capability to report
"unsupported" yields exactly the same match list as the narrowed path
whenever the narrowed candidates come from the window, window and
candidates carry distinct record ids, and every window record that the
scorer would keep is among the candidates.  (In general narrowing can drop
records that pass the gate only through file overlap, since files are not
part of the indexed text; the counterexample exhibits this.) -/
theorem find_similar_fallback_equiv (cfg : GraveyardConfig) (st : StoreModel)
    (lg : ℚ → ℚ) (summary : String) (files : List String) (mm : Option Nat)
    (hsub : ∀ e ∈ load_candidate_entries st (tokenize summary), e ∈ st.window)
    (hwin : (st.window.map GraveyardEntry.id).Nodup)
    (hcand : ((load_candidate_entries st (tokenize summary)).map
      GraveyardEntry.id).Nodup)
    (hcover : ∀ e ∈ st.window,
      scoreEntry (queryCtx cfg st lg summary files) e ≠ none →
        e ∈ load_candidate_entries st (tokenize summary)) :
    find_similar cfg st lg summary files mm =
      find_similar cfg (unsupportedStore st.window) lg summary files mm := by
  have hctx : queryCtx cfg st lg summary files =
      queryCtx cfg (unsupportedStore st.window) lg summary files := by
    simp only [queryCtx, unsupportedStore, load_candidate_entries_unsupported]
    by_cases hw : st.window.isEmpty
    · have hwnil : st.window = [] := List.isEmpty_iff.mp hw
      have hcnil : load_candidate_entries st (tokenize summary) = [] := by
        rcases hc : load_candidate_entries st (tokenize summary) with _ | ⟨e, t⟩
        · rfl
        · have := hsub e (hc ▸ List.mem_cons_self e t)
          rw [hwnil] at this
          exact absurd this (List.not_mem_nil e)
      rw [hcnil, hwnil]
      simp [load_candidate_entries]
    · simp [hw]
  have hmem : ∀ m,
      m ∈ (load_candidate_entries st (tokenize summary)).filterMap
        (scoreEntry (queryCtx cfg st lg summary files)) ↔
      m ∈ st.window.filterMap
        (scoreEntry (queryCtx cfg st lg summary files)) := by
    intro m
    constructor
    · intro h
      obtain ⟨e, he, hse⟩ := List.mem_filterMap.mp h
      exact List.mem_filterMap.mpr ⟨e, hsub e he, hse⟩
    · intro h
      obtain ⟨e, he, hse⟩ := List.mem_filterMap.mp h
      exact List.mem_filterMap.mpr
        ⟨e, hcover e he (hse ▸ Option.some_ne_none m), hse⟩
  have hndC := scored_ids_nodup (queryCtx cfg st lg summary files) hcand
  have hndW := scored_ids_nodup (queryCtx cfg st lg summary files) hwin
  have hperm : ((load_candidate_entries st (tokenize summary)).filterMap
        (scoreEntry (queryCtx cfg st lg summary files))).Perm
      (st.window.filterMap (scoreEntry (queryCtx cfg st lg summary files))) :=
    (List.perm_ext_iff_of_nodup (hndC.of_map _) (hndW.of_map _)).mpr hmem
  have hsortperm : (List.insertionSort matchRel
        ((load_candidate_entries st (tokenize summary)).filterMap
          (scoreEntry (queryCtx cfg st lg summary files)))).Perm
      (List.insertionSort matchRel
        (st.window.filterMap (scoreEntry (queryCtx cfg st lg summary files)))) :=
    ((List.perm_insertionSort matchRel _).trans hperm).trans
      (List.perm_insertionSort matchRel _).symm
  have hids : ((List.insertionSort matchRel
        ((load_candidate_entries st (tokenize summary)).filterMap
          (scoreEntry (queryCtx cfg st lg summary files)))).map
      GraveyardMatch.entry_id).Nodup :=
    ((List.perm_insertionSort matchRel _).map GraveyardMatch.entry_id).nodup_iff.mpr
      hndC
  have hsorteq : List.insertionSort matchRel
        ((load_candidate_entries st (tokenize summary)).filterMap
          (scoreEntry (queryCtx cfg st lg summary files))) =
      List.insertionSort matchRel
        (st.window.filterMap (scoreEntry (queryCtx cfg st lg summary files))) := by
    apply sorted_perm_eq hsortperm (List.sorted_insertionSort matchRel _)
      (List.sorted_insertionSort matchRel _)
    intro x hx y hy hxy hyx
    have hscore : x.score = y.score := by
      rcases hxy with h | ⟨h, _⟩
      · rcases hyx with h' | ⟨h', _⟩
        · exact absurd (h.trans h') (lt_irrefl _)
        · exact h'
      · exact h.symm
    have hid : x.entry_id = y.entry_id := by
      rcases hxy with h | ⟨_, h2⟩
      · rw [hscore] at h
        exact absurd h (lt_irrefl _)
      · rcases hyx with h' | ⟨_, h2'⟩
        · rw [hscore] at h'
          exact absurd h' (lt_irrefl _)
        · exact le_antisymm h2' h2
    exact nodup_map_inj hids x hx y hy hid
  simp only [find_similar, load_candidate_entries_unsupported]
  rw [← hctx, hsorteq]

/-- Shared helper: the fallback context assigns the query the keyword set,
token set and file set computed here. -/
theorem gy_ctx_facts :
    gy_ctx.query_keywords ∩ entryKeywordSet gy_e2 = ∅ ∧
      gy_ctx.query_files ∩ ((gy_e2.files.map norm_path).toFinset) = {"x.py"} ∧
      gy_ctx.query_files ≠ ∅ ∧
      gy_ctx.query_files.card = 1 ∧
      gy_ctx.query_token_set ∩
        (tokenize (gy_e2.summary ++ " " ++ gy_e2.reason)).toFinset = ∅ := by
  decide

/-- Shared helper: the full scan scores the file-overlap-only record at
exactly 0.25 and keeps it (0.25 is above the 0.2 threshold). -/
theorem gy_score_e2 : scoreEntry gy_ctx gy_e2 = some gy_m2 := by
  obtain ⟨hA, hF, hqf, hcard, hI⟩ := gy_ctx_facts
  have hsem : token_jaccard gy_ctx.query_token_set
      (tokenize (gy_e2.summary ++ " " ++ gy_e2.reason)).toFinset = 0 := by
    simp only [token_jaccard]
    split_ifs with h1 h2
    · rfl
    · rfl
    · rw [hI]
      simp
  simp only [scoreEntry, sortedList, hA, hF, hsem, Finset.sort_empty,
    Finset.sort_singleton, Finset.sum_empty, zero_div, if_pos hqf, hcard]
  norm_num
  refine ⟨?_, rfl⟩
  have hth : gy_ctx.cfg.similarity_threshold = 1 / 5 := rfl
  rw [hth]
  norm_num

set_option maxRecDepth 4000 in
/-- C7 (counterexample): with an enabled config (threshold 0.2), a window
holding a record whose only link to the query "alpha" / ["x.py"] is the
shared file "x.py", the narrowed path and the forced full scan disagree:
the FTS index covers only summary, reason and keywords, so the narrowing
keeps only the "alpha" record, while the full scan also returns the
file-overlap record (score 0.25 ≥ 0.2). -/
theorem find_similar_fallback_counterexample :
    find_similar gy_cfg (ftsStore gy_window) lgZero "alpha" ["x.py"] none ≠
      find_similar gy_cfg (unsupportedStore gy_window) lgZero "alpha"
        ["x.py"] none := by
  intro heq
  have hctxW : queryCtx gy_cfg (unsupportedStore gy_window) lgZero "alpha"
      ["x.py"] = gy_ctx := rfl
  have hm2W : gy_m2 ∈ find_similar gy_cfg (unsupportedStore gy_window) lgZero
      "alpha" ["x.py"] none := by
    simp only [find_similar, load_candidate_entries_unsupported, hctxW]
    split_ifs with h1 h2
    · exact absurd h2.1 (by decide)
    · have hlen : (List.insertionSort matchRel
          (gy_window.filterMap (scoreEntry gy_ctx))).length ≤
            effectiveCap gy_cfg none := by
        rw [(List.perm_insertionSort matchRel _).length_eq]
        have hle := List.length_filterMap_le (scoreEntry gy_ctx) gy_window
        have hwl : gy_window.length = 2 := by decide
        have hcap : effectiveCap gy_cfg none = 5 := by decide
        omega
      rw [List.take_of_length_le hlen]
      refine ((List.perm_insertionSort matchRel _).mem_iff).mpr ?_
      refine List.mem_filterMap.mpr ⟨gy_e2, ?_, gy_score_e2⟩
      exact List.mem_cons_self gy_e2 [gy_e1]
    · exact absurd (by decide : gy_cfg.enabled = true) h1
  rw [← heq] at hm2W
  simp only [find_similar] at hm2W
  split_ifs at hm2W
  · exact absurd hm2W (List.not_mem_nil _)
  case _ =>
    have hm' := List.mem_of_mem_take hm2W
    have hm'' := (List.perm_insertionSort matchRel _).mem_iff.mp hm'
    have hload : load_candidate_entries (ftsStore gy_window)
        (tokenize "alpha") = [gy_e1] := by decide
    rw [hload] at hm''
    obtain ⟨e, he, hse⟩ := List.mem_filterMap.mp hm''
    have he1 : e = gy_e1 := by simpa using he
    subst he1
    have hid := (scoreEntry_eq_some hse).1
    exact absurd hid (by decide)
  case _ => exact absurd hm2W (List.not_mem_nil _)

/-- C7 witness: over a one-record window whose record the narrowing keeps,
the coverage hypotheses hold concretely and the narrowed and forced-fallback
paths agree. -/
theorem find_similar_fallback_equiv_witness :
    (∀ e ∈ load_candidate_entries (ftsStore [gy_e1]) (tokenize "alpha"),
        e ∈ (ftsStore [gy_e1]).window) ∧
      ((ftsStore [gy_e1]).window.map GraveyardEntry.id).Nodup ∧
      ((load_candidate_entries (ftsStore [gy_e1]) (tokenize "alpha")).map
        GraveyardEntry.id).Nodup ∧
      (∀ e ∈ (ftsStore [gy_e1]).window,
        scoreEntry (queryCtx gy_cfg (ftsStore [gy_e1]) lgZero "alpha" []) e ≠
            none →
          e ∈ load_candidate_entries (ftsStore [gy_e1]) (tokenize "alpha")) ∧
      find_similar gy_cfg (ftsStore [gy_e1]) lgZero "alpha" [] none =
        find_similar gy_cfg (unsupportedStore (ftsStore [gy_e1]).window) lgZero
          "alpha" [] none := by
  have hl : load_candidate_entries (ftsStore [gy_e1]) (tokenize "alpha") =
      [gy_e1] := by decide
  have hcover : ∀ e ∈ (ftsStore [gy_e1]).window,
      scoreEntry (queryCtx gy_cfg (ftsStore [gy_e1]) lgZero "alpha" []) e ≠
          none →
        e ∈ load_candidate_entries (ftsStore [gy_e1]) (tokenize "alpha") := by
    intro e he _
    rw [hl]
    exact he
  exact ⟨by decide, by decide, by decide, hcover,
    find_similar_fallback_equiv gy_cfg (ftsStore [gy_e1]) lgZero "alpha" []
      none (by decide) (by decide) (by decide) hcover⟩
